import Mathlib

/-!
Shallow embedding of the lap-telemetry core of the VicenAI repository
(src/server/telemetry_service.py and src/server/lmu_service.py).

Modelling conventions:
* Python floats are modelled as rationals (ℚ); `float('inf')` values are
  modelled as `none` in an `Option ℚ` (the code only ever compares against
  infinity or replaces it).
* `round(x, 3)` is modelled by `round3` below (multiply by 1000, round to the
  nearest integer, divide by 1000).
* `uuid.uuid4()` and `time.time()` are environment inputs; the corresponding
  operations take the fresh id / current timestamp as explicit arguments.
* Python dicts preserve insertion order; `laps` is modelled as a list of
  `LapData` in insertion order, with dict assignment replacing in place when
  the key exists and appending otherwise (`dictInsert`).
-/

/-- Python `round(x, 3)`: round to three decimal places. -/
def round3 (x : ℚ) : ℚ := (round (1000 * x) : ℤ) / 1000

/-- telemetry_service.py `TelemetryPoint` dataclass. -/
structure TelemetryPoint where
  distancePct : ℚ
  speed : ℚ
  throttle : ℚ
  brake : ℚ
  gear : Int
  rpm : ℚ
  steeringAngle : ℚ
deriving DecidableEq

/-- telemetry_service.py `LapData` dataclass. -/
structure LapData where
  id : String
  lapNumber : Int
  lapTime : ℚ
  isSessionBest : Bool
  trackName : String
  carName : String
  completedAt : Int
  points : List TelemetryPoint
  deltaToSessionBest : ℚ
deriving DecidableEq

/-- `lap_time < self.session_best_time` where `session_best_time` may be
`float('inf')` (modelled as `none`). -/
def ltBest (x : ℚ) : Option ℚ → Bool
  | none => true
  | some b => decide (x < b)

/-- `round(lap_time - self.session_best_time, 3) if self.session_best_time <
float('inf') else 0.0`. -/
def deltaToBest (x : ℚ) : Option ℚ → ℚ
  | none => 0
  | some b => round3 (x - b)

namespace Telemetry

/-- State of `LapStorageService` (telemetry_service.py, lines 285-524).
`last_capture_time` is declared by `__init__` but never used by the class
methods; it is kept for fidelity. -/
structure LapStorage where
  max_laps : Nat
  laps : List LapData
  session_best_id : Option String
  session_best_time : Option ℚ
  current_lap_points : List TelemetryPoint
  current_lap_number : Int
  recording_active : Bool
  last_capture_time : ℚ
  last_distance_pct : ℚ
  pending_lap_points : List TelemetryPoint
  pending_lap_number : Int
  pending_lap_track : String
  pending_lap_car : String
  pending_lap_created_at : ℚ
deriving DecidableEq

/-- `LapStorageService.__init__(max_laps)`. -/
def LapStorage.init (max_laps : Nat) : LapStorage where
  max_laps := max_laps
  laps := []
  session_best_id := none
  session_best_time := none
  current_lap_points := []
  current_lap_number := 0
  recording_active := false
  last_capture_time := 0
  last_distance_pct := 0
  pending_lap_points := []
  pending_lap_number := 0
  pending_lap_track := ""
  pending_lap_car := ""
  pending_lap_created_at := 0

/-- `LapStorageService.start_lap`. -/
def LapStorage.start_lap (s : LapStorage) (lap_number : Int) : LapStorage :=
  { s with
    current_lap_points := []
    current_lap_number := lap_number
    recording_active := true
    last_distance_pct := 0 }

/-- `LapStorageService.add_point`. -/
def LapStorage.add_point (s : LapStorage) (point : TelemetryPoint) : LapStorage :=
  if ¬ s.recording_active then s
  else if point.distancePct ≥ s.last_distance_pct ∨ point.distancePct < 0.05 then
    { s with
      current_lap_points := s.current_lap_points ++ [point]
      last_distance_pct := point.distancePct }
  else s

/-- The `if self.session_best_id and self.session_best_id in self.laps` block:
revoke the `isSessionBest` flag of the previous best lap, if present. -/
def revokeBest (laps : List LapData) : Option String → List LapData
  | none => laps
  | some b => laps.map fun l => if l.id = b then { l with isSessionBest := false } else l

/-- Python dict assignment `self.laps[lap_id] = lap`: replace in place when the
key exists, append otherwise. -/
def dictInsert (laps : List LapData) (lap : LapData) : List LapData :=
  if laps.any fun l => l.id = lap.id then
    laps.map fun l => if l.id = lap.id then lap else l
  else laps ++ [lap]

/-- `lap.completedAt < oldest_time` where `oldest_time` starts at
`float('inf')` (modelled as `none`). -/
def ltOldest (x : Int) : Option Int → Bool
  | none => true
  | some y => decide (x < y)

/-- The scan inside `_enforce_limit`: iterate over `laps` in insertion order,
tracking the accumulator `(oldest_id, oldest_time)`, updating it at each lap
(strict `<`) whose id differs from the session best. -/
def findOldestGo (best : Option String) (acc : Option String × Option Int) :
    List LapData → Option String × Option Int
  | [] => acc
  | l :: ls =>
    if best ≠ some l.id ∧ ltOldest l.completedAt acc.2 then
      findOldestGo best (some l.id, some l.completedAt) ls
    else
      findOldestGo best acc ls

/-- One pass of the `for lap_id, lap in self.laps.items()` loop in
`_enforce_limit`: the oldest non-session-best lap id, if any. -/
def findOldest (laps : List LapData) (best : Option String) : Option String :=
  (findOldestGo best (none, none) laps).1

/-- `del self.laps[oldest_id]`. -/
def removeId (laps : List LapData) (i : String) : List LapData :=
  laps.filter fun l => l.id ≠ i

/-- The `while len(self.laps) > self.max_laps` loop of `_enforce_limit`,
with explicit fuel.  Each iteration removes one stored lap, so fuel equal to
the initial length makes the fuelled loop coincide with the Python loop. -/
def enforceLimitGo (best : Option String) (max_laps : Nat) :
    Nat → List LapData → List LapData
  | 0, laps => laps
  | fuel + 1, laps =>
    if laps.length ≤ max_laps then laps
    else
      match findOldest laps best with
      | some i => enforceLimitGo best max_laps fuel (removeId laps i)
      | none => laps

/-- `LapStorageService._enforce_limit`. -/
def LapStorage._enforce_limit (s : LapStorage) : LapStorage :=
  { s with laps := enforceLimitGo s.session_best_id s.max_laps s.laps.length s.laps }

/-- `LapStorageService.complete_lap`.  `lap_id` stands for `str(uuid.uuid4())[:8]`
and `nowMs` for `int(time.time() * 1000)`. -/
def LapStorage.complete_lap (s : LapStorage) (lap_time : ℚ)
    (track_name car_name : String) (lap_id : String) (nowMs : Int) :
    Option LapData × LapStorage :=
  if ¬ s.recording_active ∨ s.current_lap_points.length < 100 then
    (none, { s with recording_active := false })
  else if lap_time < 10.0 ∨ lap_time > 1200.0 then
    (none, { s with recording_active := false, current_lap_points := [] })
  else
    let is_session_best := ltBest lap_time s.session_best_time
    let lap : LapData :=
      { id := lap_id
        lapNumber := s.current_lap_number
        lapTime := round3 lap_time
        isSessionBest := is_session_best
        trackName := track_name
        carName := car_name
        completedAt := nowMs
        points := s.current_lap_points
        deltaToSessionBest := deltaToBest lap_time s.session_best_time }
    let s1 :=
      if is_session_best then
        { s with
          laps := revokeBest s.laps s.session_best_id
          session_best_id := some lap_id
          session_best_time := some lap_time }
      else s
    let s2 := { s1 with laps := dictInsert s1.laps lap }
    let s3 := s2._enforce_limit
    (some lap, { s3 with recording_active := false, current_lap_points := [] })

/-- `LapStorageService.save_pending_lap`. -/
def LapStorage.save_pending_lap (s : LapStorage) (lap_time : ℚ)
    (lap_id : String) (nowMs : Int) : Option LapData × LapStorage :=
  if s.pending_lap_points = [] ∨ s.pending_lap_points.length < 100 then
    (none, { s with pending_lap_points := [] })
  else if lap_time < 10.0 ∨ lap_time > 1200.0 then
    (none, { s with pending_lap_points := [], pending_lap_number := 0 })
  else
    let is_session_best := ltBest lap_time s.session_best_time
    let lap : LapData :=
      { id := lap_id
        lapNumber := s.pending_lap_number
        lapTime := round3 lap_time
        isSessionBest := is_session_best
        trackName := s.pending_lap_track
        carName := s.pending_lap_car
        completedAt := nowMs
        points := s.pending_lap_points
        deltaToSessionBest := deltaToBest lap_time s.session_best_time }
    let s1 :=
      if is_session_best then
        { s with
          laps := revokeBest s.laps s.session_best_id
          session_best_id := some lap_id
          session_best_time := some lap_time }
      else s
    let s2 :=
      { s1 with
        laps := dictInsert s1.laps lap
        pending_lap_points := []
        pending_lap_number := 0
        pending_lap_track := ""
        pending_lap_car := "" }
    let s3 := s2._enforce_limit
    (some lap, s3)

/-- `LapStorageService.delete_lap`. -/
def LapStorage.delete_lap (s : LapStorage) (lap_id : String) : Bool × LapStorage :=
  if some lap_id = s.session_best_id then (false, s)
  else if s.laps.any fun l => l.id = lap_id then
    (true, { s with laps := removeId s.laps lap_id })
  else (false, s)

/-- `LapStorageService.reset_session`. -/
def LapStorage.reset_session (s : LapStorage) : LapStorage :=
  { s with
    laps := []
    session_best_id := none
    session_best_time := none
    current_lap_points := []
    recording_active := false
    pending_lap_points := []
    pending_lap_number := 0
    pending_lap_track := ""
    pending_lap_car := ""
    pending_lap_created_at := 0 }

/-- `LapStorageService.clear_pending_lap`. -/
def LapStorage.clear_pending_lap (s : LapStorage) : LapStorage :=
  { s with
    pending_lap_points := []
    pending_lap_number := 0
    pending_lap_track := ""
    pending_lap_car := ""
    pending_lap_created_at := 0 }

end Telemetry

namespace LMU

/-!
src/server/lmu_service.py declares its own `LapStorageService` (lines 139-378),
a textual copy of the one in telemetry_service.py.  It is embedded here
independently, over the same `TelemetryPoint`/`LapData` record types (the two
dataclass declarations are field-for-field identical).
-/

/-- State of `LapStorageService` (lmu_service.py, lines 139-378). -/
structure LapStorage where
  max_laps : Nat
  laps : List LapData
  session_best_id : Option String
  session_best_time : Option ℚ
  current_lap_points : List TelemetryPoint
  current_lap_number : Int
  recording_active : Bool
  last_capture_time : ℚ
  last_distance_pct : ℚ
  pending_lap_points : List TelemetryPoint
  pending_lap_number : Int
  pending_lap_track : String
  pending_lap_car : String
  pending_lap_created_at : ℚ
deriving DecidableEq

/-- `LapStorageService.__init__(max_laps)` (LMU). -/
def LapStorage.init (max_laps : Nat) : LapStorage where
  max_laps := max_laps
  laps := []
  session_best_id := none
  session_best_time := none
  current_lap_points := []
  current_lap_number := 0
  recording_active := false
  last_capture_time := 0
  last_distance_pct := 0
  pending_lap_points := []
  pending_lap_number := 0
  pending_lap_track := ""
  pending_lap_car := ""
  pending_lap_created_at := 0

/-- `LapStorageService.start_lap` (LMU). -/
def LapStorage.start_lap (s : LapStorage) (lap_number : Int) : LapStorage :=
  { s with
    current_lap_points := []
    current_lap_number := lap_number
    recording_active := true
    last_distance_pct := 0 }

/-- `LapStorageService.add_point` (LMU). -/
def LapStorage.add_point (s : LapStorage) (point : TelemetryPoint) : LapStorage :=
  if ¬ s.recording_active then s
  else if point.distancePct ≥ s.last_distance_pct ∨ point.distancePct < 0.05 then
    { s with
      current_lap_points := s.current_lap_points ++ [point]
      last_distance_pct := point.distancePct }
  else s

/-- Previous-best revocation block (LMU). -/
def revokeBest (laps : List LapData) : Option String → List LapData
  | none => laps
  | some b => laps.map fun l => if l.id = b then { l with isSessionBest := false } else l

/-- Dict assignment `self.laps[lap_id] = lap` (LMU). -/
def dictInsert (laps : List LapData) (lap : LapData) : List LapData :=
  if laps.any fun l => l.id = lap.id then
    laps.map fun l => if l.id = lap.id then lap else l
  else laps ++ [lap]

/-- `lap.completedAt < oldest_time` comparison (LMU). -/
def ltOldest (x : Int) : Option Int → Bool
  | none => true
  | some y => decide (x < y)

/-- Scan inside `_enforce_limit` (LMU). -/
def findOldestGo (best : Option String) (acc : Option String × Option Int) :
    List LapData → Option String × Option Int
  | [] => acc
  | l :: ls =>
    if best ≠ some l.id ∧ ltOldest l.completedAt acc.2 then
      findOldestGo best (some l.id, some l.completedAt) ls
    else
      findOldestGo best acc ls

/-- Oldest non-session-best lap id (LMU). -/
def findOldest (laps : List LapData) (best : Option String) : Option String :=
  (findOldestGo best (none, none) laps).1

/-- `del self.laps[oldest_id]` (LMU). -/
def removeId (laps : List LapData) (i : String) : List LapData :=
  laps.filter fun l => l.id ≠ i

/-- Fuelled `while` loop of `_enforce_limit` (LMU). -/
def enforceLimitGo (best : Option String) (max_laps : Nat) :
    Nat → List LapData → List LapData
  | 0, laps => laps
  | fuel + 1, laps =>
    if laps.length ≤ max_laps then laps
    else
      match findOldest laps best with
      | some i => enforceLimitGo best max_laps fuel (removeId laps i)
      | none => laps

/-- `LapStorageService._enforce_limit` (LMU). -/
def LapStorage._enforce_limit (s : LapStorage) : LapStorage :=
  { s with laps := enforceLimitGo s.session_best_id s.max_laps s.laps.length s.laps }

/-- `LapStorageService.complete_lap` (LMU). -/
def LapStorage.complete_lap (s : LapStorage) (lap_time : ℚ)
    (track_name car_name : String) (lap_id : String) (nowMs : Int) :
    Option LapData × LapStorage :=
  if ¬ s.recording_active ∨ s.current_lap_points.length < 100 then
    (none, { s with recording_active := false })
  else if lap_time < 10.0 ∨ lap_time > 1200.0 then
    (none, { s with recording_active := false, current_lap_points := [] })
  else
    let is_session_best := ltBest lap_time s.session_best_time
    let lap : LapData :=
      { id := lap_id
        lapNumber := s.current_lap_number
        lapTime := round3 lap_time
        isSessionBest := is_session_best
        trackName := track_name
        carName := car_name
        completedAt := nowMs
        points := s.current_lap_points
        deltaToSessionBest := deltaToBest lap_time s.session_best_time }
    let s1 :=
      if is_session_best then
        { s with
          laps := revokeBest s.laps s.session_best_id
          session_best_id := some lap_id
          session_best_time := some lap_time }
      else s
    let s2 := { s1 with laps := dictInsert s1.laps lap }
    let s3 := s2._enforce_limit
    (some lap, { s3 with recording_active := false, current_lap_points := [] })

/-- `LapStorageService.save_pending_lap` (LMU). -/
def LapStorage.save_pending_lap (s : LapStorage) (lap_time : ℚ)
    (lap_id : String) (nowMs : Int) : Option LapData × LapStorage :=
  if s.pending_lap_points = [] ∨ s.pending_lap_points.length < 100 then
    (none, { s with pending_lap_points := [] })
  else if lap_time < 10.0 ∨ lap_time > 1200.0 then
    (none, { s with pending_lap_points := [], pending_lap_number := 0 })
  else
    let is_session_best := ltBest lap_time s.session_best_time
    let lap : LapData :=
      { id := lap_id
        lapNumber := s.pending_lap_number
        lapTime := round3 lap_time
        isSessionBest := is_session_best
        trackName := s.pending_lap_track
        carName := s.pending_lap_car
        completedAt := nowMs
        points := s.pending_lap_points
        deltaToSessionBest := deltaToBest lap_time s.session_best_time }
    let s1 :=
      if is_session_best then
        { s with
          laps := revokeBest s.laps s.session_best_id
          session_best_id := some lap_id
          session_best_time := some lap_time }
      else s
    let s2 :=
      { s1 with
        laps := dictInsert s1.laps lap
        pending_lap_points := []
        pending_lap_number := 0
        pending_lap_track := ""
        pending_lap_car := "" }
    let s3 := s2._enforce_limit
    (some lap, s3)

/-- `LapStorageService.delete_lap` (LMU). -/
def LapStorage.delete_lap (s : LapStorage) (lap_id : String) : Bool × LapStorage :=
  if some lap_id = s.session_best_id then (false, s)
  else if s.laps.any fun l => l.id = lap_id then
    (true, { s with laps := removeId s.laps lap_id })
  else (false, s)

/-- `LapStorageService.reset_session` (LMU). -/
def LapStorage.reset_session (s : LapStorage) : LapStorage :=
  { s with
    laps := []
    session_best_id := none
    session_best_time := none
    current_lap_points := []
    recording_active := false
    pending_lap_points := []
    pending_lap_number := 0
    pending_lap_track := ""
    pending_lap_car := ""
    pending_lap_created_at := 0 }

/-- `LapStorageService.clear_pending_lap` (LMU). -/
def LapStorage.clear_pending_lap (s : LapStorage) : LapStorage :=
  { s with
    pending_lap_points := []
    pending_lap_number := 0
    pending_lap_track := ""
    pending_lap_car := ""
    pending_lap_created_at := 0 }

end LMU

/-! ### Constants (telemetry_service.py, lines 59-63) -/

/-- `LAP_CAPTURE_INTERVAL = 0.05`. -/
def LAP_CAPTURE_INTERVAL : ℚ := 0.05

/-- `MIN_LAP_POINTS = 100`. -/
def MIN_LAP_POINTS : Nat := 100

/-! ### Spotter state machine (telemetry_service.py, lines 561-564, 611-613,
897-964) and the spotter slice of `detect_events` (lines 1719-1739). -/

/-- Spotter fields of `IRacingTelemetryService`. -/
structure SpotterState where
  spotter_state : String
  spotter_frames_in_state : Nat
  spotter_last_call : ℚ
  spotter_cooldown : ℚ
  spotter_still_interval : ℚ
deriving DecidableEq

/-- Spotter fields as initialised by `__init__` / `_reset_session_tracking`. -/
def SpotterState.initState : SpotterState where
  spotter_state := "clear"
  spotter_frames_in_state := 0
  spotter_last_call := 0
  spotter_cooldown := 1.0
  spotter_still_interval := 2.0

/-- `IRacingTelemetryService._update_spotter_state`.  `now` stands for
`time.time()`; the proximity dict is passed as the two booleans it carries. -/
def _update_spotter_state (st : SpotterState) (now : ℚ)
    (car_left car_right : Bool) : Option String × SpotterState :=
  let new_state :=
    if car_left ∧ car_right then "three_wide"
    else if car_left then "car_left"
    else if car_right then "car_right"
    else "clear"
  if new_state ≠ st.spotter_state then
    if new_state = "clear" then
      let event :=
        if st.spotter_state = "three_wide" then "clear_all_around"
        else if st.spotter_state = "car_left" then "clear_left"
        else if st.spotter_state = "car_right" then "clear_right"
        else "clear"
      (some event,
        { st with
          spotter_last_call := now
          spotter_state := new_state
          spotter_frames_in_state := 0 })
    else if now - st.spotter_last_call ≥ st.spotter_cooldown then
      (some new_state,
        { st with
          spotter_last_call := now
          spotter_state := new_state
          spotter_frames_in_state := 0 })
    else
      (none, { st with spotter_state := new_state, spotter_frames_in_state := 0 })
  else
    if (st.spotter_state = "car_left" ∨ st.spotter_state = "car_right" ∨
        st.spotter_state = "three_wide") ∧
        now - st.spotter_last_call ≥ st.spotter_still_interval then
      let variant_num := st.spotter_frames_in_state % 3 + 1
      let event :=
        if st.spotter_state = "car_left" then some ("still_left_" ++ toString variant_num)
        else if st.spotter_state = "car_right" then some ("still_right_" ++ toString variant_num)
        else if st.spotter_state = "three_wide" then some ("still_three_wide_" ++ toString variant_num)
        else none
      (event,
        { st with
          spotter_last_call := now
          spotter_frames_in_state := st.spotter_frames_in_state + 1 })
    else
      (none, st)

/-- Spotter-related mutable fields touched by the spotter block of
`detect_events`: the state machine plus `_last_spotter_emit`
(read through `getattr(self, ..., 0)`, so initially `0`). -/
structure SpotterEmitState where
  st : SpotterState
  _last_spotter_emit : ℚ
deriving DecidableEq

/-- The spotter block at the end of `detect_events` (lines 1725-1739), after
its gating condition has passed: run the state machine, then append a
`spotter` event only if at least `0.5` seconds passed since the last emitted
spotter event.  `now` is the `time.time()` read inside
`_update_spotter_state`; `current_time` the one read at line 1730.  The
returned option is the `call` key of the appended event, if any. -/
def detectSpotterSlice (e : SpotterEmitState) (now current_time : ℚ)
    (car_left car_right : Bool) : Option String × SpotterEmitState :=
  let res := _update_spotter_state e.st now car_left car_right
  match res.1 with
  | some ev =>
    if current_time - e._last_spotter_emit ≥ 0.5 then
      (some ev, { st := res.2, _last_spotter_emit := current_time })
    else
      (none, { e with st := res.2 })
  | none => (none, { e with st := res.2 })

/-! ### `capture_lap_telemetry` (telemetry_service.py, lines 1433-1564).

Environment reads (`_safe_get`, session info, clock, uuid) are passed in as an
explicit input record; the connectivity check and the exception handler wrap
the whole body and are outside the model. -/

/-- Mutable fields of `IRacingTelemetryService` used by
`capture_lap_telemetry`. -/
structure CaptureState where
  storage : Telemetry.LapStorage
  prev_lap_for_capture : Int
  last_lap_capture_time : ℚ
deriving DecidableEq

/-- One tick of environment reads for `capture_lap_telemetry`. -/
structure CaptureInput where
  now : ℚ
  current_lap : Int
  lap_dist_pct : ℚ
  last_lap_time : ℚ
  track_name : String
  car_name : String
  pending_lap_id : String
  lap_id : String
  nowMs : Int
  player_surface : Int
  point : TelemetryPoint
deriving DecidableEq

/-- `IRacingTelemetryService.capture_lap_telemetry`. -/
def capture_lap_telemetry (st0 : CaptureState) (inp : CaptureInput) :
    Option LapData × CaptureState :=
  if inp.now - st0.last_lap_capture_time < LAP_CAPTURE_INTERVAL then (none, st0)
  else
    let st := { st0 with last_lap_capture_time := inp.now }
    let pendingStep : Option LapData × CaptureState :=
      if st.storage.pending_lap_points.length > 0 then
        let pending_age := inp.now - st.storage.pending_lap_created_at
        if pending_age > 10.0 then
          (none, { st with storage := st.storage.clear_pending_lap })
        else if inp.last_lap_time > 0 then
          let res := st.storage.save_pending_lap inp.last_lap_time inp.pending_lap_id inp.nowMs
          (res.1, { st with storage := res.2 })
        else (none, st)
      else (none, st)
    match pendingStep with
    | (some lap, st) => (some lap, st)
    | (none, st) =>
      if inp.current_lap > st.prev_lap_for_capture ∧ st.prev_lap_for_capture > 0 then
        let prev_lap := st.prev_lap_for_capture
        let st := { st with prev_lap_for_capture := inp.current_lap }
        let completedStep : Option LapData × CaptureState :=
          if inp.last_lap_time > 0 then
            let res := st.storage.complete_lap inp.last_lap_time inp.track_name
              inp.car_name inp.lap_id inp.nowMs
            (res.1, { st with storage := res.2 })
          else if st.storage.current_lap_points.length > MIN_LAP_POINTS then
            (none,
              { st with storage :=
                { st.storage with
                  pending_lap_points := st.storage.current_lap_points
                  pending_lap_number := prev_lap
                  pending_lap_track := inp.track_name
                  pending_lap_car := inp.car_name
                  pending_lap_created_at := inp.now } })
          else (none, st)
        (completedStep.1,
          { completedStep.2 with
            storage := completedStep.2.storage.start_lap inp.current_lap })
      else
        let st :=
          if inp.current_lap > 0 ∧ st.prev_lap_for_capture = 0 then
            { st with
              storage := st.storage.start_lap inp.current_lap
              prev_lap_for_capture := inp.current_lap }
          else st
        if ¬ (inp.player_surface = 1 ∨ inp.player_surface = 3 ∨ inp.player_surface = 4) then
          (none, st)
        else if st.storage.recording_active then
          (none, { st with storage := st.storage.add_point inp.point })
        else (none, st)

/-! ### Opponent sector tracker (telemetry_service.py, lines 150-253).

The per-car state dict `{last_dist, last_sector, sector_times, sector_start_time,
last_session_time}` is flattened into a record (the tracked `sector_times`
keys are exactly `s1`, `s2`, `s3`; assignments to any other key, which the
code can only produce from an out-of-range `last_sector`, fall outside the
tracked triple and are modelled as no-ops on it). -/

/-- Per-car tracking state of `OpponentSectorTracker`. -/
structure CarState where
  last_dist : ℚ
  last_sector : Nat
  s1 : Option ℚ
  s2 : Option ℚ
  s3 : Option ℚ
  sector_start_time : ℚ
  last_session_time : ℚ
deriving DecidableEq

/-- `OpponentSectorTracker._get_sector_from_dist`. -/
def _get_sector_from_dist (dist_pct : ℚ) : Nat :=
  if dist_pct < 0.33 then 1
  else if dist_pct < 0.66 then 2
  else 3

/-- The state created when a car index is first seen. -/
def CarState.firstSeen (dist_pct session_time : ℚ) : CarState where
  last_dist := dist_pct
  last_sector := _get_sector_from_dist dist_pct
  s1 := none
  s2 := none
  s3 := none
  sector_start_time := session_time
  last_session_time := session_time

/-- `state['sector_times'][f's{k}'] = v` restricted to the tracked triple. -/
def setSectorTime (st : CarState) (k : Nat) (v : ℚ) : CarState :=
  if k = 1 then { st with s1 := some v }
  else if k = 2 then { st with s2 := some v }
  else if k = 3 then { st with s3 := some v }
  else st

/-- The per-car body of `OpponentSectorTracker.update` for an already tracked
car (lines 202-230). -/
def updateCarState (state : CarState) (dist_pct session_time : ℚ) : CarState :=
  let current_sector := _get_sector_from_dist dist_pct
  let last_sector := state.last_sector
  let state1 :=
    if current_sector ≠ last_sector then
      let state2 :=
        if last_sector = 3 ∧ current_sector = 1 then
          let sector_time := session_time - state.sector_start_time
          let state3 :=
            if 0 < sector_time ∧ sector_time < 300 then
              { state with s3 := some (round3 sector_time) }
            else state
          { state3 with sector_start_time := session_time }
        else if current_sector = last_sector + 1 then
          let sector_time := session_time - state.sector_start_time
          let state3 :=
            if 0 < sector_time ∧ sector_time < 300 then
              setSectorTime state last_sector (round3 sector_time)
            else state
          { state3 with sector_start_time := session_time }
        else state
      { state2 with last_sector := current_sector }
    else state
  { state1 with last_dist := dist_pct, last_session_time := session_time }

/-- `self.car_states` as an association list in insertion order. -/
def lookupCar (states : List (Nat × CarState)) (i : Nat) : Option CarState :=
  (states.find? fun p => p.1 = i).map fun p => p.2

/-- Assignment `self.car_states[i] = st` (dict semantics). -/
def setCar (states : List (Nat × CarState)) (i : Nat) (st : CarState) :
    List (Nat × CarState) :=
  if states.any fun p => p.1 = i then
    states.map fun p => if p.1 = i then (i, st) else p
  else states ++ [(i, st)]

/-- One iteration of the `for car_idx in range(...)` loop of
`OpponentSectorTracker.update`. -/
def processCar (states : List (Nat × CarState)) (car_idx : Nat)
    (lap_dist_pcts : List ℚ) (track_surfaces : List Int) (session_time : ℚ) :
    List (Nat × CarState) :=
  let dist_pct := lap_dist_pcts.getD car_idx 0
  if dist_pct < 0 ∨ car_idx ≥ track_surfaces.length then states
  else if track_surfaces.getD car_idx 0 < 0 then states
  else
    match lookupCar states car_idx with
    | none => setCar states car_idx (CarState.firstSeen dist_pct session_time)
    | some st => setCar states car_idx (updateCarState st dist_pct session_time)

/-- `OpponentSectorTracker.update` over one frame. -/
def sectorUpdate (states : List (Nat × CarState)) (lap_dist_pcts : List ℚ)
    (track_surfaces : List Int) (session_time : ℚ) : List (Nat × CarState) :=
  (List.range (min lap_dist_pcts.length 64)).foldl
    (fun acc car_idx => processCar acc car_idx lap_dist_pcts track_surfaces session_time)
    states

/-- `OpponentSectorTracker.update` over a sequence of frames. -/
def sectorRun (states : List (Nat × CarState))
    (frames : List (List ℚ × List Int × ℚ)) : List (Nat × CarState) :=
  frames.foldl (fun acc f => sectorUpdate acc f.1 f.2.1 f.2.2) states

/-! ### Invariants and helper lemmas -/

/-- Validity of a stored lap (claim C1): enough points, plausible time. -/
def validLap (l : LapData) : Prop :=
  100 ≤ l.points.length ∧ 10 ≤ l.lapTime ∧ l.lapTime ≤ 1200

/-- All stored laps are valid. -/
def validLaps (laps : List LapData) : Prop := ∀ l ∈ laps, validLap l

/-- Session-best bookkeeping invariant on the `(laps, session_best_id,
session_best_time)` triple (claim C2):  stored ids are distinct; when no best
is set the store is empty; when a best is set it names a stored lap whose
stored time is the rounded best time, the `isSessionBest` flag marks exactly
that lap, and its stored time is minimal among stored laps. -/
def invLaps (laps : List LapData) (bid : Option String) (bt : Option ℚ) : Prop :=
  laps.Pairwise (fun a b => a.id ≠ b.id) ∧
  match bid, bt with
  | none, none => laps = []
  | some b, some t =>
      (∃ l ∈ laps, l.id = b ∧ l.lapTime = round3 t) ∧
      (∀ l ∈ laps, l.isSessionBest = true ↔ l.id = b) ∧
      (∀ l ∈ laps, round3 t ≤ l.lapTime)
  | _, _ => False

/-- The invariant, read off a `LapStorageService` state. -/
def bestInv (s : Telemetry.LapStorage) : Prop :=
  invLaps s.laps s.session_best_id s.session_best_time

/-- Comparison of session-best times with `none` as `float('inf')`. -/
def bestLE : Option ℚ → Option ℚ → Prop
  | _, none => True
  | none, some _ => False
  | some a, some b => a ≤ b

lemma bestLE_refl (o : Option ℚ) : bestLE o o := by
  cases o <;> simp [bestLE]

lemma round3_mono {x y : ℚ} (h : x ≤ y) : round3 x ≤ round3 y := by
  unfold round3
  have h1 : round (1000 * x) ≤ round (1000 * y) := by
    rw [round_eq, round_eq]
    exact Int.floor_le_floor (by linarith)
  have h2 : ((round (1000 * x) : ℤ) : ℚ) ≤ ((round (1000 * y) : ℤ) : ℚ) := by
    exact_mod_cast h1
  linarith

set_option maxRecDepth 10000 in
lemma round3_ten : round3 10 = 10 := by
  with_unfolding_all exact of_decide_eq_true rfl

set_option maxRecDepth 10000 in
lemma round3_twelvehundred : round3 1200 = 1200 := by
  with_unfolding_all exact of_decide_eq_true rfl

set_option maxRecDepth 10000 in
lemma round3_zero : round3 0 = 0 := by
  with_unfolding_all exact of_decide_eq_true rfl

set_option maxRecDepth 10000 in
lemma round3_threehundred : round3 300 = 300 := by
  with_unfolding_all exact of_decide_eq_true rfl

/-- A rounded lap time inherits the `[10, 1200]` window. -/
lemma round3_lap_bounds {x : ℚ} (h1 : 10 ≤ x) (h2 : x ≤ 1200) :
    10 ≤ round3 x ∧ round3 x ≤ 1200 :=
  ⟨round3_ten ▸ round3_mono h1, round3_twelvehundred ▸ round3_mono h2⟩

/-- A rounded sector time inherits the `[0, 300]` window. -/
lemma round3_sector_bounds {x : ℚ} (h1 : 0 ≤ x) (h2 : x ≤ 300) :
    0 ≤ round3 x ∧ round3 x ≤ 300 :=
  ⟨round3_zero ▸ round3_mono h1, round3_threehundred ▸ round3_mono h2⟩

namespace Telemetry

/-- Characterisation of the `_enforce_limit` scan accumulator over a processed
prefix `P`: either nothing eligible was seen, or the accumulator holds an
eligible lap of `P` with minimal `completedAt` among the eligible laps of `P`. -/
def OldestInv (best : Option String) (P : List LapData)
    (acc : Option String × Option Int) : Prop :=
  (acc = (none, none) ∧ ∀ l ∈ P, best = some l.id) ∨
  (∃ j t, acc = (some j, some t) ∧ best ≠ some j ∧
    (∃ l ∈ P, l.id = j ∧ l.completedAt = t) ∧
    ∀ l ∈ P, best ≠ some l.id → t ≤ l.completedAt)

lemma findOldestGo_spec (best : Option String) :
    ∀ (L P : List LapData) (acc : Option String × Option Int),
      OldestInv best P acc → OldestInv best (P ++ L) (findOldestGo best acc L) := by
  intro L
  induction L with
  | nil => intro P acc h; simpa [findOldestGo] using h
  | cons l ls ih =>
    intro P acc h
    rw [findOldestGo]
    by_cases hc : best ≠ some l.id ∧ ltOldest l.completedAt acc.2
    · rw [if_pos hc]
      have h2 : OldestInv best (P ++ [l]) (some l.id, some l.completedAt) := by
        refine Or.inr ⟨l.id, l.completedAt, rfl, hc.1, ⟨l, by simp, rfl, rfl⟩, ?_⟩
        intro l' hl' hbl'
        rcases List.mem_append.1 hl' with hP | hl
        · rcases h with ⟨hacc, hall⟩ | ⟨j, t, hacc, _, _, hmin⟩
          · exact absurd (hall l' hP) hbl'
          · have ht := hmin l' hP hbl'
            have hlt : l.completedAt < t := by
              have := hc.2
              rw [hacc] at this
              simpa [ltOldest] using this
            omega
        · simp only [List.mem_singleton] at hl
          subst hl; omega
      have := ih (P ++ [l]) _ h2
      simpa [List.append_assoc] using this
    · rw [if_neg hc]
      have h2 : OldestInv best (P ++ [l]) acc := by
        rcases h with ⟨hacc, hall⟩ | ⟨j, t, hacc, hbj, hwit, hmin⟩
        · by_cases hb : best = some l.id
          · exact Or.inl ⟨hacc, by
              intro l' hl'
              rcases List.mem_append.1 hl' with hP | hl
              · exact hall l' hP
              · simp only [List.mem_singleton] at hl; subst hl; exact hb⟩
          · exfalso
            have : ltOldest l.completedAt acc.2 = true := by
              rw [hacc]; simp [ltOldest]
            exact hc ⟨hb, this⟩
        · refine Or.inr ⟨j, t, hacc, hbj, ?_, ?_⟩
          · obtain ⟨w, hw, hwid, hwt⟩ := hwit
            exact ⟨w, List.mem_append.2 (Or.inl hw), hwid, hwt⟩
          · intro l' hl' hbl'
            rcases List.mem_append.1 hl' with hP | hl
            · exact hmin l' hP hbl'
            · simp only [List.mem_singleton] at hl
              subst hl
              have : ¬ ltOldest l'.completedAt acc.2 = true := fun hlt => hc ⟨hbl', hlt⟩
              rw [hacc] at this
              simp only [ltOldest, decide_eq_true_eq] at this
              omega
      have := ih (P ++ [l]) _ h2
      simpa [List.append_assoc] using this

/-- Full characterisation of `findOldest`. -/
lemma findOldest_spec (L : List LapData) (best : Option String) :
    OldestInv best L (findOldestGo best (none, none) L) := by
  have := findOldestGo_spec best L [] (none, none) (Or.inl ⟨rfl, by simp⟩)
  simpa using this

end Telemetry

namespace Telemetry

/-- A successful `findOldest` names a stored, non-best lap of minimal
`completedAt` among the non-best laps. -/
lemma findOldest_eq_some {L : List LapData} {bid : Option String} {i : String}
    (h : findOldest L bid = some i) :
    bid ≠ some i ∧
      ∃ l ∈ L, l.id = i ∧
        ∀ l' ∈ L, bid ≠ some l'.id → l.completedAt ≤ l'.completedAt := by
  have hspec := findOldest_spec L bid
  rcases hspec with ⟨hacc, _⟩ | ⟨j, t, hacc, hbj, ⟨l, hl, hlid, hlt⟩, hmin⟩
  · rw [findOldest, hacc] at h; cases h
  · rw [findOldest, hacc] at h
    simp only [Option.some_inj] at h
    subst h
    refine ⟨hbj, l, hl, hlid, ?_⟩
    intro l' hl' hbl'
    have := hmin l' hl' hbl'
    omega

/-- `findOldest` succeeds as soon as some stored lap is not the session best. -/
lemma findOldest_isSome {L : List LapData} {bid : Option String}
    (h : ∃ l ∈ L, bid ≠ some l.id) : ∃ i, findOldest L bid = some i := by
  have hspec := findOldest_spec L bid
  rcases hspec with ⟨hacc, hall⟩ | ⟨j, t, hacc, _, _, _⟩
  · obtain ⟨l, hl, hbl⟩ := h
    exact absurd (hall l hl) hbl
  · exact ⟨j, by rw [findOldest, hacc]⟩

lemma removeId_pairwise {L : List LapData} {i : String}
    (h : L.Pairwise fun a b => a.id ≠ b.id) :
    (removeId L i).Pairwise fun a b => a.id ≠ b.id :=
  h.sublist (List.filter_sublist L)

lemma mem_removeId {L : List LapData} {i : String} {l : LapData} :
    l ∈ removeId L i ↔ l ∈ L ∧ l.id ≠ i := by
  simp [removeId]

lemma removeId_length_lt {L : List LapData} {i : String}
    (h : ∃ l ∈ L, l.id = i) : (removeId L i).length < L.length := by
  obtain ⟨l, hl, hid⟩ := h
  apply List.length_filter_lt_length_iff_exists.2
  exact ⟨l, hl, by simp [hid]⟩

/-- Deleting a non-best lap preserves the session-best invariant. -/
lemma invLaps_removeId {L : List LapData} {bid : Option String} {bt : Option ℚ}
    {i : String} (h : invLaps L bid bt) (hi : bid ≠ some i) :
    invLaps (removeId L i) bid bt := by
  obtain ⟨hpw, hrest⟩ := h
  refine ⟨removeId_pairwise hpw, ?_⟩
  cases bid with
  | none =>
    cases bt with
    | none => simp only at hrest ⊢; rw [hrest]; rfl
    | some t => exact hrest.elim
  | some b =>
    cases bt with
    | none => exact hrest.elim
    | some t =>
      obtain ⟨⟨l, hl, hlid, hltime⟩, hflag, hmin⟩ := hrest
      have hbi : b ≠ i := fun hbi => hi (by rw [hbi])
      refine ⟨⟨l, mem_removeId.2 ⟨hl, by rw [hlid]; exact hbi⟩, hlid, hltime⟩, ?_, ?_⟩
      · intro l' hl'
        exact hflag l' (mem_removeId.1 hl').1
      · intro l' hl'
        exact hmin l' (mem_removeId.1 hl').1

/-- The eviction loop preserves the session-best invariant. -/
lemma invLaps_enforceLimitGo {bid : Option String} {bt : Option ℚ} (maxL : Nat) :
    ∀ (fuel : Nat) (L : List LapData), invLaps L bid bt →
      invLaps (enforceLimitGo bid maxL fuel L) bid bt := by
  intro fuel
  induction fuel with
  | zero => intro L h; simpa [enforceLimitGo] using h
  | succ n ih =>
    intro L h
    rw [enforceLimitGo]
    split
    · exact h
    · cases hfo : findOldest L bid with
      | none => exact h
      | some i => exact ih _ (invLaps_removeId h (findOldest_eq_some hfo).1)

lemma countP_id_le_one {L : List LapData}
    (hpw : L.Pairwise fun a b => a.id ≠ b.id) (b : String) :
    L.countP (fun l => decide (l.id = b)) ≤ 1 := by
  induction L with
  | nil => simp
  | cons a L ih =>
    rcases List.pairwise_cons.1 hpw with ⟨ha, hL⟩
    by_cases hab : a.id = b
    · have hz : L.countP (fun l => decide (l.id = b)) = 0 := by
        rw [List.countP_eq_zero]
        intro l hl
        simp only [decide_eq_true_eq]
        intro hlb
        exact (ha l hl) (hab.trans hlb.symm)
      rw [List.countP_cons_of_pos _ _ (by simpa using hab), hz]
    · have h2 := ih hL
      rw [List.countP_cons_of_neg _ _ (by simpa using hab)]
      exact h2

/-- With distinct ids and at least two stored laps, some lap is not the best. -/
lemma exists_eligible {L : List LapData} {bid : Option String}
    (hpw : L.Pairwise fun a b => a.id ≠ b.id) (hlen : 2 ≤ L.length) :
    ∃ l ∈ L, bid ≠ some l.id := by
  cases bid with
  | none =>
    cases L with
    | nil => simp at hlen
    | cons a L => exact ⟨a, by simp, by simp⟩
  | some b =>
    by_contra hcon
    push_neg at hcon
    have hall : ∀ l ∈ L, l.id = b := by
      intro l hl
      have := hcon l hl
      simpa [eq_comm] using this
    have hcount : L.countP (fun l => decide (l.id = b)) = L.length := by
      rw [List.countP_eq_length]
      intro l hl
      simpa using hall l hl
    have := countP_id_le_one hpw b
    omega

/-- With `max_laps ≥ 1` and distinct ids, the eviction loop lands at or below
the limit whenever its fuel covers the initial length. -/
lemma enforceLimitGo_length {bid : Option String} {maxL : Nat} (hmax : 1 ≤ maxL) :
    ∀ (fuel : Nat) (L : List LapData),
      L.Pairwise (fun a b => a.id ≠ b.id) →
      L.length ≤ maxL + fuel →
      (enforceLimitGo bid maxL fuel L).length ≤ maxL := by
  intro fuel
  induction fuel with
  | zero =>
    intro L _ hlen
    rw [enforceLimitGo]
    omega
  | succ n ih =>
    intro L hpw hlen
    rw [enforceLimitGo]
    split
    · assumption
    · rename_i hgt
      have hlen2 : 2 ≤ L.length := by omega
      obtain ⟨i, hi⟩ := findOldest_isSome (exists_eligible hpw hlen2)
      rw [hi]
      obtain ⟨-, l, hl, hlid, -⟩ := findOldest_eq_some hi
      have hdec := removeId_length_lt ⟨l, hl, hlid⟩
      exact ih _ (removeId_pairwise hpw) (by omega)

end Telemetry

namespace Telemetry

lemma revokeElem_id (b : String) (l : LapData) :
    (if l.id = b then { l with isSessionBest := false } else l).id = l.id := by
  split <;> rfl

lemma revokeElem_lapTime (b : String) (l : LapData) :
    (if l.id = b then { l with isSessionBest := false } else l).lapTime = l.lapTime := by
  split <;> rfl

lemma revokeElem_isSessionBest (b : String) (l : LapData) :
    (if l.id = b then { l with isSessionBest := false } else l).isSessionBest =
      (if l.id = b then false else l.isSessionBest) := by
  split <;> rfl

lemma mem_revokeBest {L : List LapData} {b : String} {l' : LapData}
    (h : l' ∈ revokeBest L (some b)) :
    ∃ l ∈ L, l' = (if l.id = b then { l with isSessionBest := false } else l) := by
  rw [revokeBest] at h
  obtain ⟨l, hl, hfl⟩ := List.mem_map.1 h
  exact ⟨l, hl, hfl.symm⟩

lemma revokeBest_pairwise {L : List LapData} {bid : Option String}
    (h : L.Pairwise fun a b => a.id ≠ b.id) :
    (revokeBest L bid).Pairwise fun a b => a.id ≠ b.id := by
  cases bid with
  | none => exact h
  | some b =>
    rw [revokeBest, List.pairwise_map]
    exact h.imp fun hac => by simpa [revokeElem_id] using hac

lemma dictInsert_fresh {L : List LapData} {lap : LapData}
    (h : ∀ l ∈ L, l.id ≠ lap.id) : dictInsert L lap = L ++ [lap] := by
  rw [dictInsert, if_neg]
  intro hc
  rw [List.any_eq_true] at hc
  obtain ⟨l, hl, hid⟩ := hc
  exact h l hl (by simpa using hid)

/-- Storing a new session-best lap (the `is_session_best` branch of
`complete_lap`/`save_pending_lap`) re-establishes the invariant. -/
lemma invLaps_store_best {L : List LapData} {bid : Option String} {bt : Option ℚ}
    {x : ℚ} {i : String} (maxL : Nat) (num : Int) (track car : String) (ms : Int)
    (pts : List TelemetryPoint) (d : ℚ)
    (hinv : invLaps L bid bt) (hfresh : ∀ l ∈ L, l.id ≠ i)
    (hb : ltBest x bt = true) :
    invLaps
      (enforceLimitGo (some i) maxL
        (dictInsert (revokeBest L bid)
          ⟨i, num, round3 x, true, track, car, ms, pts, d⟩).length
        (dictInsert (revokeBest L bid)
          ⟨i, num, round3 x, true, track, car, ms, pts, d⟩))
      (some i) (some x) := by
  apply invLaps_enforceLimitGo
  obtain ⟨hpw, hrest⟩ := hinv
  cases bid with
  | none =>
    cases bt with
    | some t => exact hrest.elim
    | none =>
      have hL : L = [] := hrest
      subst hL
      rw [show revokeBest [] none = [] from rfl, dictInsert_fresh (by simp)]
      refine ⟨by simp,
        ⟨(⟨i, num, round3 x, true, track, car, ms, pts, d⟩ : LapData), by simp, rfl, rfl⟩,
        ?_, ?_⟩
      · intro l' hl'
        have : l' = (⟨i, num, round3 x, true, track, car, ms, pts, d⟩ : LapData) := by
          simpa using hl'
        subst this
        simp
      · intro l' hl'
        have : l' = (⟨i, num, round3 x, true, track, car, ms, pts, d⟩ : LapData) := by
          simpa using hl'
        subst this
        exact le_refl _
  | some b =>
    cases bt with
    | none => exact hrest.elim
    | some t =>
      obtain ⟨⟨lb, hlb, hlbid, hlbtime⟩, hflag, hmin⟩ := hrest
      have hxt : x < t := by simpa [ltBest] using hb
      have hrevids : ∀ l ∈ revokeBest L (some b), l.id ≠ i := by
        intro l hl
        obtain ⟨l0, hl0, hfl⟩ := mem_revokeBest hl
        rw [hfl, revokeElem_id]
        exact hfresh l0 hl0
      rw [dictInsert_fresh hrevids]
      refine ⟨?_,
        ⟨(⟨i, num, round3 x, true, track, car, ms, pts, d⟩ : LapData),
          List.mem_append.2 (Or.inr (by simp)), rfl, rfl⟩,
        ?_, ?_⟩
      · rw [List.pairwise_append]
        refine ⟨revokeBest_pairwise hpw, by simp, ?_⟩
        intro a ha c hc
        have : c = (⟨i, num, round3 x, true, track, car, ms, pts, d⟩ : LapData) := by
          simpa using hc
        subst this
        exact hrevids a ha
      · intro l' hl'
        rcases List.mem_append.1 hl' with hle | hri
        · obtain ⟨l0, hl0, hfl⟩ := mem_revokeBest hle
          subst hfl
          rw [revokeElem_isSessionBest, revokeElem_id]
          constructor
          · intro htrue
            by_cases hc : l0.id = b
            · rw [if_pos hc] at htrue; cases htrue
            · rw [if_neg hc] at htrue
              exact absurd ((hflag l0 hl0).1 htrue) hc
          · intro hid
            exact absurd hid (hfresh l0 hl0)
        · have : l' = (⟨i, num, round3 x, true, track, car, ms, pts, d⟩ : LapData) := by
            simpa using hri
          subst this
          simp
      · intro l' hl'
        rcases List.mem_append.1 hl' with hle | hri
        · obtain ⟨l0, hl0, hfl⟩ := mem_revokeBest hle
          subst hfl
          rw [revokeElem_lapTime]
          calc round3 x ≤ round3 t := round3_mono (le_of_lt hxt)
            _ ≤ l0.lapTime := hmin l0 hl0
        · have : l' = (⟨i, num, round3 x, true, track, car, ms, pts, d⟩ : LapData) := by
            simpa using hri
          subst this
          exact le_refl _

/-- Storing a non-best lap preserves the invariant unchanged. -/
lemma invLaps_store_nonbest {L : List LapData} {bid : Option String} {bt : Option ℚ}
    {x : ℚ} {i : String} (maxL : Nat) (num : Int) (track car : String) (ms : Int)
    (pts : List TelemetryPoint) (d : ℚ)
    (hinv : invLaps L bid bt) (hfresh : ∀ l ∈ L, l.id ≠ i)
    (hb : ltBest x bt = false) :
    invLaps
      (enforceLimitGo bid maxL
        (dictInsert L ⟨i, num, round3 x, false, track, car, ms, pts, d⟩).length
        (dictInsert L ⟨i, num, round3 x, false, track, car, ms, pts, d⟩))
      bid bt := by
  apply invLaps_enforceLimitGo
  obtain ⟨hpw, hrest⟩ := hinv
  cases bt with
  | none => simp [ltBest] at hb
  | some t =>
    cases bid with
    | none => exact hrest.elim
    | some b =>
      have htx : t ≤ x := by simpa [ltBest, not_lt] using hb
      obtain ⟨⟨lb, hlb, hlbid, hlbtime⟩, hflag, hmin⟩ := hrest
      have hbi : b ≠ i := fun hcon => hfresh lb hlb (hlbid.trans hcon)
      rw [dictInsert_fresh hfresh]
      refine ⟨?_, ⟨lb, List.mem_append.2 (Or.inl hlb), hlbid, hlbtime⟩, ?_, ?_⟩
      · rw [List.pairwise_append]
        refine ⟨hpw, by simp, ?_⟩
        intro a ha c hc
        have : c = (⟨i, num, round3 x, false, track, car, ms, pts, d⟩ : LapData) := by
          simpa using hc
        subst this
        exact hfresh a ha
      · intro l' hl'
        rcases List.mem_append.1 hl' with hle | hri
        · exact hflag l' hle
        · have : l' = (⟨i, num, round3 x, false, track, car, ms, pts, d⟩ : LapData) := by
            simpa using hri
          subst this
          simpa using fun hcon => hbi hcon.symm
      · intro l' hl'
        rcases List.mem_append.1 hl' with hle | hri
        · exact hmin l' hle
        · have : l' = (⟨i, num, round3 x, false, track, car, ms, pts, d⟩ : LapData) := by
            simpa using hri
          subst this
          exact round3_mono htx

end Telemetry

namespace Telemetry

/-- `complete_lap` preserves the session-best invariant (fresh id). -/
lemma complete_lap_bestInv {s : LapStorage} {x : ℚ} {track car i : String} {ms : Int}
    (hinv : bestInv s) (hfresh : ∀ l ∈ s.laps, l.id ≠ i) :
    bestInv (s.complete_lap x track car i ms).2 := by
  rw [LapStorage.complete_lap]
  split
  · exact hinv
  · split
    · exact hinv
    · dsimp only [LapStorage._enforce_limit, bestInv]
      cases hb : ltBest x s.session_best_time with
      | true =>
        simp only [hb, if_true]
        exact invLaps_store_best s.max_laps _ _ _ _ _ _ hinv hfresh hb
      | false =>
        simp only [hb, Bool.false_eq_true, if_false]
        exact invLaps_store_nonbest s.max_laps _ _ _ _ _ _ hinv hfresh hb

/-- `save_pending_lap` preserves the session-best invariant (fresh id). -/
lemma save_pending_lap_bestInv {s : LapStorage} {x : ℚ} {i : String} {ms : Int}
    (hinv : bestInv s) (hfresh : ∀ l ∈ s.laps, l.id ≠ i) :
    bestInv (s.save_pending_lap x i ms).2 := by
  rw [LapStorage.save_pending_lap]
  split
  · exact hinv
  · split
    · exact hinv
    · dsimp only [LapStorage._enforce_limit, bestInv]
      cases hb : ltBest x s.session_best_time with
      | true =>
        simp only [hb, if_true]
        exact invLaps_store_best s.max_laps _ _ _ _ _ _ hinv hfresh hb
      | false =>
        simp only [hb, Bool.false_eq_true, if_false]
        exact invLaps_store_nonbest s.max_laps _ _ _ _ _ _ hinv hfresh hb

/-- `delete_lap` preserves the session-best invariant. -/
lemma delete_lap_bestInv {s : LapStorage} {i : String} (hinv : bestInv s) :
    bestInv (s.delete_lap i).2 := by
  rw [LapStorage.delete_lap]
  split
  · exact hinv
  · split
    · rename_i hne _
      exact invLaps_removeId hinv fun hcon => hne hcon.symm
    · exact hinv

/-- `_enforce_limit` preserves the session-best invariant. -/
lemma enforce_limit_bestInv {s : LapStorage} (hinv : bestInv s) :
    bestInv s._enforce_limit :=
  invLaps_enforceLimitGo s.max_laps _ _ hinv

/-- `reset_session` trivially re-establishes the invariant. -/
lemma reset_session_bestInv (s : LapStorage) : bestInv s.reset_session :=
  ⟨List.Pairwise.nil, rfl⟩

/-- The session-best time never increases across `complete_lap`. -/
lemma complete_lap_time_mono (s : LapStorage) (x : ℚ) (track car i : String) (ms : Int) :
    bestLE (s.complete_lap x track car i ms).2.session_best_time s.session_best_time := by
  rw [LapStorage.complete_lap]
  split
  · exact bestLE_refl _
  · split
    · exact bestLE_refl _
    · dsimp only [LapStorage._enforce_limit]
      cases hb : ltBest x s.session_best_time with
      | true =>
        simp only [hb, if_true]
        cases ht : s.session_best_time with
        | none => trivial
        | some t =>
          rw [ht] at hb
          simp only [ltBest, decide_eq_true_eq] at hb
          exact le_of_lt hb
      | false =>
        simp only [hb, Bool.false_eq_true, if_false]
        exact bestLE_refl _

/-- The session-best time never increases across `save_pending_lap`. -/
lemma save_pending_lap_time_mono (s : LapStorage) (x : ℚ) (i : String) (ms : Int) :
    bestLE (s.save_pending_lap x i ms).2.session_best_time s.session_best_time := by
  rw [LapStorage.save_pending_lap]
  split
  · exact bestLE_refl _
  · split
    · exact bestLE_refl _
    · dsimp only [LapStorage._enforce_limit]
      cases hb : ltBest x s.session_best_time with
      | true =>
        simp only [hb, if_true]
        cases ht : s.session_best_time with
        | none => trivial
        | some t =>
          rw [ht] at hb
          simp only [ltBest, decide_eq_true_eq] at hb
          exact le_of_lt hb
      | false =>
        simp only [hb, Bool.false_eq_true, if_false]
        exact bestLE_refl _

/-- Under the invariant, exactly one stored lap carries the flag when a best
is set, and none when it is unset. -/
lemma invLaps_flag_count {L : List LapData} {bid : Option String} {bt : Option ℚ}
    (h : invLaps L bid bt) :
    L.countP (fun l => l.isSessionBest) = (if bid.isSome then 1 else 0) := by
  obtain ⟨hpw, hrest⟩ := h
  cases bid with
  | none =>
    cases bt with
    | some t => exact hrest.elim
    | none =>
      have hL : L = [] := hrest
      subst hL
      simp
  | some b =>
    cases bt with
    | none => exact hrest.elim
    | some t =>
      obtain ⟨⟨l, hl, hlid, _⟩, hflag, _⟩ := hrest
      have hcongr : L.countP (fun l => l.isSessionBest) =
          L.countP (fun l => decide (l.id = b)) := by
        apply List.countP_congr
        intro l' hl'
        simp only [decide_eq_true_eq]
        exact hflag l' hl'
      rw [hcongr]
      have h1 := countP_id_le_one hpw b
      have h2 : 0 < L.countP (fun l => decide (l.id = b)) := by
        rw [List.countP_pos_iff]
        exact ⟨l, hl, by simpa using hlid⟩
      simp only [Option.isSome_some, if_true]
      omega

end Telemetry

lemma ten_lit : (10.0 : ℚ) = 10 := by norm_num

lemma twelvehundred_lit : (1200.0 : ℚ) = 1200 := by norm_num

namespace Telemetry

lemma validLaps_removeId {L : List LapData} {i : String} (h : validLaps L) :
    validLaps (removeId L i) :=
  fun l hl => h l (mem_removeId.1 hl).1

lemma validLaps_enforceLimitGo {bid : Option String} {maxL : Nat} :
    ∀ (fuel : Nat) (L : List LapData), validLaps L →
      validLaps (enforceLimitGo bid maxL fuel L) := by
  intro fuel
  induction fuel with
  | zero => intro L h; simpa [enforceLimitGo] using h
  | succ n ih =>
    intro L h
    rw [enforceLimitGo]
    split
    · exact h
    · cases hfo : findOldest L bid with
      | none => exact h
      | some i => exact ih _ (validLaps_removeId h)

lemma validLap_revokeElem {b : String} {l : LapData} (h : validLap l) :
    validLap (if l.id = b then { l with isSessionBest := false } else l) := by
  split
  · exact h
  · exact h

lemma validLaps_revokeBest {L : List LapData} {bid : Option String}
    (h : validLaps L) : validLaps (revokeBest L bid) := by
  cases bid with
  | none => exact h
  | some b =>
    intro l hl
    obtain ⟨l0, hl0, hfl⟩ := mem_revokeBest hl
    subst hfl
    exact validLap_revokeElem (h l0 hl0)

lemma validLaps_dictInsert {L : List LapData} {lap : LapData}
    (h : validLaps L) (hlap : validLap lap) : validLaps (dictInsert L lap) := by
  rw [dictInsert]
  split
  · intro l hl
    obtain ⟨l0, hl0, hfl⟩ := List.mem_map.1 hl
    rw [← hfl]
    split
    · exact hlap
    · exact h l0 hl0
  · intro l hl
    rcases List.mem_append.1 hl with hle | hri
    · exact h l hle
    · have : l = lap := by simpa using hri
      subst this
      exact hlap

/-- `complete_lap` keeps every stored lap valid. -/
lemma complete_lap_validLaps {s : LapStorage} {x : ℚ} {track car i : String}
    {ms : Int} (h : validLaps s.laps) :
    validLaps (s.complete_lap x track car i ms).2.laps := by
  rw [LapStorage.complete_lap]
  split
  · exact h
  · split
    · exact h
    · rename_i h1 h2
      dsimp only [LapStorage._enforce_limit]
      rw [not_or, not_lt, not_lt] at h2
      rw [ten_lit, twelvehundred_lit] at h2
      rw [not_or, not_lt] at h1
      have hlap : validLap
          ⟨i, s.current_lap_number, round3 x, ltBest x s.session_best_time,
            track, car, ms, s.current_lap_points,
            deltaToBest x s.session_best_time⟩ := by
        refine ⟨by simpa using h1.2, ?_, ?_⟩
        · exact (round3_lap_bounds h2.1 h2.2).1
        · exact (round3_lap_bounds h2.1 h2.2).2
      cases hb : ltBest x s.session_best_time with
      | true =>
        simp only [hb, if_true]
        apply validLaps_enforceLimitGo
        apply validLaps_dictInsert (validLaps_revokeBest h)
        rw [hb] at hlap
        exact hlap
      | false =>
        simp only [hb, Bool.false_eq_true, if_false]
        apply validLaps_enforceLimitGo
        apply validLaps_dictInsert h
        rw [hb] at hlap
        exact hlap

/-- `save_pending_lap` keeps every stored lap valid. -/
lemma save_pending_lap_validLaps {s : LapStorage} {x : ℚ} {i : String}
    {ms : Int} (h : validLaps s.laps) :
    validLaps (s.save_pending_lap x i ms).2.laps := by
  rw [LapStorage.save_pending_lap]
  split
  · exact h
  · split
    · exact h
    · rename_i h1 h2
      dsimp only [LapStorage._enforce_limit]
      rw [not_or, not_lt, not_lt] at h2
      rw [ten_lit, twelvehundred_lit] at h2
      rw [not_or, not_lt] at h1
      have hlap : validLap
          ⟨i, s.pending_lap_number, round3 x, ltBest x s.session_best_time,
            s.pending_lap_track, s.pending_lap_car, ms, s.pending_lap_points,
            deltaToBest x s.session_best_time⟩ := by
        refine ⟨by simpa using h1.2, ?_, ?_⟩
        · exact (round3_lap_bounds h2.1 h2.2).1
        · exact (round3_lap_bounds h2.1 h2.2).2
      cases hb : ltBest x s.session_best_time with
      | true =>
        simp only [hb, if_true]
        apply validLaps_enforceLimitGo
        apply validLaps_dictInsert (validLaps_revokeBest h)
        rw [hb] at hlap
        exact hlap
      | false =>
        simp only [hb, Bool.false_eq_true, if_false]
        apply validLaps_enforceLimitGo
        apply validLaps_dictInsert h
        rw [hb] at hlap
        exact hlap

end Telemetry

/-- C1: `complete_lap` and `save_pending_lap` return `none` and store nothing
when fewer than 100 points were accumulated (or buffered) or the lap time lies
outside `[10.0, 1200.0]`; consequently validity of all stored laps (at least
100 points, time within the window) is preserved by every storage operation. -/
theorem C1_lap_validation (s : Telemetry.LapStorage) (x : ℚ)
    (track car i : String) (ms : Int) :
    ((¬ s.recording_active ∨ s.current_lap_points.length < 100 ∨
        x < 10.0 ∨ x > 1200.0) →
      (s.complete_lap x track car i ms).1 = none ∧
      (s.complete_lap x track car i ms).2.laps = s.laps) ∧
    ((s.pending_lap_points.length < 100 ∨ x < 10.0 ∨ x > 1200.0) →
      (s.save_pending_lap x i ms).1 = none ∧
      (s.save_pending_lap x i ms).2.laps = s.laps) ∧
    (validLaps s.laps →
      validLaps (s.complete_lap x track car i ms).2.laps ∧
      validLaps (s.save_pending_lap x i ms).2.laps ∧
      validLaps (s.delete_lap i).2.laps ∧
      validLaps s._enforce_limit.laps ∧
      validLaps s.reset_session.laps) := by
  refine ⟨?_, ?_, ?_⟩
  · intro hpre
    rw [Telemetry.LapStorage.complete_lap]
    split
    · exact ⟨rfl, rfl⟩
    · rename_i hg1
      split
      · exact ⟨rfl, rfl⟩
      · rename_i hg2
        exfalso
        rcases hpre with h | h | h | h
        · exact hg1 (Or.inl h)
        · exact hg1 (Or.inr h)
        · exact hg2 (Or.inl h)
        · exact hg2 (Or.inr h)
  · intro hpre
    rw [Telemetry.LapStorage.save_pending_lap]
    split
    · exact ⟨rfl, rfl⟩
    · rename_i hg1
      split
      · exact ⟨rfl, rfl⟩
      · rename_i hg2
        exfalso
        rcases hpre with h | h | h
        · exact hg1 (Or.inr h)
        · exact hg2 (Or.inl h)
        · exact hg2 (Or.inr h)
  · intro hv
    refine ⟨Telemetry.complete_lap_validLaps hv, Telemetry.save_pending_lap_validLaps hv,
      ?_, Telemetry.validLaps_enforceLimitGo _ _ hv, ?_⟩
    · rw [Telemetry.LapStorage.delete_lap]
      split
      · exact hv
      · split
        · exact Telemetry.validLaps_removeId hv
        · exact hv
    · intro l hl
      exact absurd hl (List.not_mem_nil l)

/-- Witness for C1 at concrete inputs: on a fresh service neither completion
path stores anything, and validity is preserved. -/
theorem C1_lap_validation_witness :
    ((Telemetry.LapStorage.init 10).complete_lap 5 "t" "c" "i" 0).1 = none ∧
    ((Telemetry.LapStorage.init 10).save_pending_lap 5 "i" 0).1 = none ∧
    validLaps ((Telemetry.LapStorage.init 10).reset_session).laps := by
  have h := C1_lap_validation (Telemetry.LapStorage.init 10) 5 "t" "c" "i" 0
  refine ⟨(h.1 (Or.inl (by decide))).1,
    (h.2.1 (Or.inl (by decide))).1,
    (h.2.2 ?_).2.2.2.2⟩
  intro l hl
  exact absurd hl (List.not_mem_nil l)

/-- C2: every storage operation preserves the session-best invariant (the
best id, when set, names a stored lap of minimal stored time and exactly one
stored lap carries the `isSessionBest` flag; with no best set the store is
empty, so zero laps carry it), and the session-best time never increases
across `complete_lap`/`save_pending_lap`. -/
theorem C2_session_best_invariant (s : Telemetry.LapStorage) (x : ℚ)
    (track car i : String) (ms : Int)
    (hinv : bestInv s) (hfresh : ∀ l ∈ s.laps, l.id ≠ i) :
    bestInv (s.complete_lap x track car i ms).2 ∧
    bestInv (s.save_pending_lap x i ms).2 ∧
    bestInv (s.delete_lap i).2 ∧
    bestInv s._enforce_limit ∧
    bestInv s.reset_session ∧
    bestLE (s.complete_lap x track car i ms).2.session_best_time
      s.session_best_time ∧
    bestLE (s.save_pending_lap x i ms).2.session_best_time
      s.session_best_time ∧
    s.laps.countP (fun l => l.isSessionBest) =
      (if s.session_best_id.isSome then 1 else 0) :=
  ⟨Telemetry.complete_lap_bestInv hinv hfresh,
    Telemetry.save_pending_lap_bestInv hinv hfresh,
    Telemetry.delete_lap_bestInv hinv,
    Telemetry.enforce_limit_bestInv hinv,
    Telemetry.reset_session_bestInv s,
    Telemetry.complete_lap_time_mono s x track car i ms,
    Telemetry.save_pending_lap_time_mono s x i ms,
    Telemetry.invLaps_flag_count hinv⟩

/-- Witness for C2 on the freshly initialised service. -/
theorem C2_session_best_invariant_witness :
    bestInv ((Telemetry.LapStorage.init 10).complete_lap 100 "t" "c" "i" 0).2 ∧
    (Telemetry.LapStorage.init 10).laps.countP (fun l => l.isSessionBest) = 0 := by
  have h := C2_session_best_invariant (Telemetry.LapStorage.init 10) 100 "t" "c" "i" 0
    ⟨List.Pairwise.nil, rfl⟩ (fun l hl => absurd hl (List.not_mem_nil l))
  exact ⟨h.1, h.2.2.2.2.2.2.2⟩

namespace Telemetry

lemma dictInsert_revoke_pairwise {L : List LapData} {bid : Option String}
    {lap : LapData} (hpw : L.Pairwise fun a b => a.id ≠ b.id)
    (hfresh : ∀ l ∈ L, l.id ≠ lap.id) :
    (dictInsert (revokeBest L bid) lap).Pairwise fun a b => a.id ≠ b.id := by
  have hrev : ∀ l ∈ revokeBest L bid, l.id ≠ lap.id := by
    cases bid with
    | none => exact hfresh
    | some b =>
      intro l hl
      obtain ⟨l0, hl0, hfl⟩ := mem_revokeBest hl
      rw [hfl, revokeElem_id]
      exact hfresh l0 hl0
  rw [dictInsert_fresh hrev, List.pairwise_append]
  refine ⟨revokeBest_pairwise hpw, by simp, ?_⟩
  intro a ha c hc
  have : c = lap := by simpa using hc
  subst this
  exact hrev a ha

/-- When `complete_lap` stores a lap and `max_laps ≥ 1`, the store ends at or
below the limit. -/
lemma complete_lap_length_le {s : LapStorage} {x : ℚ} {track car i : String}
    {ms : Int} (hinv : bestInv s) (hfresh : ∀ l ∈ s.laps, l.id ≠ i)
    (hmax : 1 ≤ s.max_laps)
    (hsome : (s.complete_lap x track car i ms).1.isSome = true) :
    (s.complete_lap x track car i ms).2.laps.length ≤ s.max_laps := by
  rw [LapStorage.complete_lap] at hsome ⊢
  by_cases hc1 : ¬ s.recording_active ∨ s.current_lap_points.length < 100
  · rw [if_pos hc1] at hsome
    simp at hsome
  · rw [if_neg hc1] at hsome ⊢
    by_cases hc2 : x < 10.0 ∨ x > 1200.0
    · rw [if_pos hc2] at hsome
      simp at hsome
    · rw [if_neg hc2]
      dsimp only [LapStorage._enforce_limit]
      cases hb : ltBest x s.session_best_time with
      | true =>
        simp only [hb, if_true]
        exact enforceLimitGo_length hmax _ _
          (dictInsert_revoke_pairwise hinv.1 hfresh) (Nat.le_add_left _ _)
      | false =>
        simp only [hb, Bool.false_eq_true, if_false]
        exact enforceLimitGo_length hmax _ _
          (@dictInsert_revoke_pairwise _ none _ hinv.1 hfresh) (Nat.le_add_left _ _)

/-- When `save_pending_lap` stores a lap and `max_laps ≥ 1`, the store ends at
or below the limit. -/
lemma save_pending_lap_length_le {s : LapStorage} {x : ℚ} {i : String}
    {ms : Int} (hinv : bestInv s) (hfresh : ∀ l ∈ s.laps, l.id ≠ i)
    (hmax : 1 ≤ s.max_laps)
    (hsome : (s.save_pending_lap x i ms).1.isSome = true) :
    (s.save_pending_lap x i ms).2.laps.length ≤ s.max_laps := by
  rw [LapStorage.save_pending_lap] at hsome ⊢
  by_cases hc1 : s.pending_lap_points = [] ∨ s.pending_lap_points.length < 100
  · rw [if_pos hc1] at hsome
    simp at hsome
  · rw [if_neg hc1] at hsome ⊢
    by_cases hc2 : x < 10.0 ∨ x > 1200.0
    · rw [if_pos hc2] at hsome
      simp at hsome
    · rw [if_neg hc2]
      dsimp only [LapStorage._enforce_limit]
      cases hb : ltBest x s.session_best_time with
      | true =>
        simp only [hb, if_true]
        exact enforceLimitGo_length hmax _ _
          (dictInsert_revoke_pairwise hinv.1 hfresh) (Nat.le_add_left _ _)
      | false =>
        simp only [hb, Bool.false_eq_true, if_false]
        exact enforceLimitGo_length hmax _ _
          (@dictInsert_revoke_pairwise _ none _ hinv.1 hfresh) (Nat.le_add_left _ _)

/-- The session-best lap survives `_enforce_limit`. -/
lemma enforce_keeps_best {s : LapStorage} {b : String} (hinv : bestInv s)
    (hb : s.session_best_id = some b) :
    ∃ l ∈ s._enforce_limit.laps, l.id = b := by
  have h2 := enforce_limit_bestInv hinv
  obtain ⟨-, hrest⟩ := h2
  dsimp only [LapStorage._enforce_limit] at hrest ⊢
  cases ht : s.session_best_time with
  | none =>
    exfalso
    have hr := hinv.2
    rw [hb, ht] at hr
    exact hr.elim
  | some t =>
    rw [hb, ht] at hrest
    rw [hb]
    obtain ⟨⟨l, hl, hlid, -⟩, -, -⟩ := hrest
    exact ⟨l, hl, hlid⟩

end Telemetry

/-- A fixed telemetry point used by concrete scenarios. -/
def pt0 : TelemetryPoint := ⟨0, 0, 0, 0, 0, 0, 0⟩

/-- A storage with `max_laps = 0` holding a recordable lap of 100 points. -/
def c3state : Telemetry.LapStorage :=
  { Telemetry.LapStorage.init 0 with
    recording_active := true
    current_lap_points := List.replicate 100 pt0 }

/-- C3 counterexample: with `max_laps = 0` a lap is stored and the store ends
with 1 > 0 laps, because the eviction loop refuses to delete the session best;
the claim `len(laps) ≤ max_laps after every storing call` fails as stated. -/
theorem C3_counterexample :
    c3state.max_laps = 0 ∧
    (c3state.complete_lap 100 "Spa" "GT3" "a1" 5).1.isSome = true ∧
    (c3state.complete_lap 100 "Spa" "GT3" "a1" 5).2.laps.length = 1 := by
  refine ⟨rfl, ?_, ?_⟩
  · with_unfolding_all exact of_decide_eq_true rfl
  · with_unfolding_all exact of_decide_eq_true rfl

/-- C3 (amended): assuming `max_laps ≥ 1`, every `complete_lap` or
`save_pending_lap` call that stores a lap leaves at most `max_laps` stored
laps; the eviction scan only ever selects a lap whose id differs from the
session best with minimal `completedAt` among such laps (one removal per loop
iteration); and the session-best lap always survives `_enforce_limit`. -/
theorem C3_eviction_policy (s : Telemetry.LapStorage) (x : ℚ)
    (track car i : String) (ms : Int) (b j : String)
    (hinv : bestInv s) (hfresh : ∀ l ∈ s.laps, l.id ≠ i)
    (hmax : 1 ≤ s.max_laps) :
    ((s.complete_lap x track car i ms).1.isSome = true →
      (s.complete_lap x track car i ms).2.laps.length ≤ s.max_laps) ∧
    ((s.save_pending_lap x i ms).1.isSome = true →
      (s.save_pending_lap x i ms).2.laps.length ≤ s.max_laps) ∧
    (Telemetry.findOldest s.laps s.session_best_id = some j →
      s.session_best_id ≠ some j ∧
      ∃ l ∈ s.laps, l.id = j ∧
        ∀ l' ∈ s.laps, s.session_best_id ≠ some l'.id →
          l.completedAt ≤ l'.completedAt) ∧
    (s.session_best_id = some b → ∃ l ∈ s._enforce_limit.laps, l.id = b) :=
  ⟨fun hsome => Telemetry.complete_lap_length_le hinv hfresh hmax hsome,
    fun hsome => Telemetry.save_pending_lap_length_le hinv hfresh hmax hsome,
    fun hfo => Telemetry.findOldest_eq_some hfo,
    fun hb => Telemetry.enforce_keeps_best hinv hb⟩

/-- A storage with `max_laps = 1` holding a recordable lap of 100 points. -/
def c3wstate : Telemetry.LapStorage :=
  { Telemetry.LapStorage.init 1 with
    recording_active := true
    current_lap_points := List.replicate 100 pt0 }

/-- Witness for C3 at a concrete input. -/
theorem C3_eviction_policy_witness :
    (c3wstate.complete_lap 100 "t" "c" "a1" 5).1.isSome = true ∧
    (c3wstate.complete_lap 100 "t" "c" "a1" 5).2.laps.length ≤ 1 := by
  have h := C3_eviction_policy c3wstate 100 "t" "c" "a1" 5 "b" "j"
    ⟨List.Pairwise.nil, rfl⟩ (fun l hl => absurd hl (List.not_mem_nil l))
    (le_refl 1)
  have hsome : (c3wstate.complete_lap 100 "t" "c" "a1" 5).1.isSome = true := by
    with_unfolding_all exact of_decide_eq_true rfl
  exact ⟨hsome, h.1 hsome⟩

/-! ### The two-lap scenario of claim C4 -/

/-- Scenario point `i` with `distancePct` rising from 0.00 towards 0.99. -/
def scenPoint (i : Nat) : TelemetryPoint := ⟨(i : ℚ) / 150, 200, 1, 0, 4, 7000, 0⟩

/-- 150 scenario points with strictly rising `distancePct`. -/
def scenPoints : List TelemetryPoint := (List.range 150).map scenPoint

/-- Feed a list of points through `add_point`. -/
def feedPoints (s : Telemetry.LapStorage) (pts : List TelemetryPoint) :
    Telemetry.LapStorage :=
  pts.foldl Telemetry.LapStorage.add_point s

/-- Recording of lap 1 after 150 points. -/
def scenState1 : Telemetry.LapStorage :=
  feedPoints ((Telemetry.LapStorage.init 10).start_lap 1) scenPoints

/-- First completion: `complete_lap(95.432, "Spa", "GT3")`. -/
def scenRes1 : Option LapData × Telemetry.LapStorage :=
  scenState1.complete_lap 95.432 "Spa" "GT3" "lap-a" 1000

/-- Recording of lap 2 after 150 more points. -/
def scenState2 : Telemetry.LapStorage :=
  feedPoints (scenRes1.2.start_lap 2) scenPoints

/-- Second completion: `complete_lap(94.010, "Spa", "GT3")`. -/
def scenRes2 : Option LapData × Telemetry.LapStorage :=
  scenState2.complete_lap 94.010 "Spa" "GT3" "lap-b" 2000

/-- Placeholder lap for `Option.getD`. -/
def dfltLap : LapData := ⟨"", 0, 0, false, "", "", 0, [], 0⟩

/-- The lap returned by the first completion. -/
def scenLap1 : LapData := scenRes1.1.getD dfltLap

/-- The lap returned by the second completion. -/
def scenLap2 : LapData := scenRes2.1.getD dfltLap

/-- The first lap as stored after the second completion. -/
def scenLapA : LapData :=
  (scenRes2.2.laps.find? fun l => l.id == "lap-a").getD dfltLap

/-- The stored first lap looked up after the second completion. -/
def scenFindA : Option LapData := scenRes2.2.laps.find? fun l => l.id == "lap-a"

set_option maxRecDepth 100000 in
/-- C4 counterexample: in the two-lap scenario the second (faster) lap is
returned (`scenLap2` is the returned lap) with `isSessionBest = true` but
`deltaToSessionBest = -1.422`, not `0.0` as claimed — `complete_lap` computes
the delta against the previous session best before updating it. -/
theorem C4_counterexample :
    scenRes2.1.isSome = true ∧
    scenLap2.isSessionBest = true ∧
    scenLap2.deltaToSessionBest = -1.422 ∧
    ¬ scenLap2.deltaToSessionBest = 0 := by
  refine ⟨?_, ?_, ?_, ?_⟩
  · with_unfolding_all exact of_decide_eq_true rfl
  · with_unfolding_all exact of_decide_eq_true rfl
  · with_unfolding_all exact of_decide_eq_true rfl
  · with_unfolding_all exact of_decide_eq_true rfl

set_option maxRecDepth 100000 in
/-- C4 (amended): the first completion returns a session-best lap with delta
`0.0`; the second completion returns a new session-best lap whose
`deltaToSessionBest` is `-1.422` (its time minus the previous best, computed
before the best is updated), the first lap's flag flips to `false`, and the
first lap's stored delta stays `0.0`. -/
theorem C4_two_lap_scenario :
    scenRes1.1.isSome = true ∧
    scenLap1.isSessionBest = true ∧
    scenLap1.deltaToSessionBest = 0 ∧
    scenRes2.1.isSome = true ∧
    scenLap2.isSessionBest = true ∧
    scenLap2.deltaToSessionBest = -1.422 ∧
    scenFindA.isSome = true ∧
    scenLapA.isSessionBest = false ∧
    scenLapA.deltaToSessionBest = 0 := by
  refine ⟨?_, ?_, ?_, ?_, ?_, ?_, ?_, ?_, ?_⟩
  · with_unfolding_all exact of_decide_eq_true rfl
  · with_unfolding_all exact of_decide_eq_true rfl
  · with_unfolding_all exact of_decide_eq_true rfl
  · with_unfolding_all exact of_decide_eq_true rfl
  · with_unfolding_all exact of_decide_eq_true rfl
  · with_unfolding_all exact of_decide_eq_true rfl
  · with_unfolding_all exact of_decide_eq_true rfl
  · with_unfolding_all exact of_decide_eq_true rfl
  · with_unfolding_all exact of_decide_eq_true rfl

/-- C9: `add_point` is a no-op when not recording; when recording, a point is
appended exactly when `distancePct >= last_distance_pct` or
`distancePct < 0.05`, and `last_distance_pct` is updated exactly on append. -/
theorem C9_add_point (s : Telemetry.LapStorage) (p : TelemetryPoint) :
    (¬ s.recording_active = true → s.add_point p = s) ∧
    (s.recording_active = true →
      ((p.distancePct ≥ s.last_distance_pct ∨ p.distancePct < 0.05) →
        (s.add_point p).current_lap_points = s.current_lap_points ++ [p] ∧
        (s.add_point p).last_distance_pct = p.distancePct) ∧
      (¬ (p.distancePct ≥ s.last_distance_pct ∨ p.distancePct < 0.05) →
        s.add_point p = s)) := by
  refine ⟨?_, ?_⟩
  · intro hrec
    rw [Telemetry.LapStorage.add_point, if_pos hrec]
  · intro hrec
    refine ⟨?_, ?_⟩
    · intro hcond
      rw [Telemetry.LapStorage.add_point, if_neg (by simpa using hrec), if_pos hcond]
      exact ⟨rfl, rfl⟩
    · intro hcond
      rw [Telemetry.LapStorage.add_point, if_neg (by simpa using hrec), if_neg hcond]

/-- Witness for C9: no-op on the fresh (non-recording) service, append after
`start_lap`. -/
theorem C9_add_point_witness :
    (Telemetry.LapStorage.init 10).add_point pt0 = Telemetry.LapStorage.init 10 ∧
    (((Telemetry.LapStorage.init 10).start_lap 1).add_point pt0).current_lap_points
      = [pt0] := by
  have h1 := C9_add_point (Telemetry.LapStorage.init 10) pt0
  have h2 := C9_add_point ((Telemetry.LapStorage.init 10).start_lap 1) pt0
  exact ⟨h1.1 (by decide), ((h2.2 rfl).1 (Or.inl (le_refl 0))).1⟩

/-! ### Claim C10: the iRacing and LMU `LapStorageService` classes -/

/-- An abstract `LapStorageService` call, with the environment-supplied
uuid/timestamp inputs carried in the operation. -/
inductive LapOp where
  | startLap (n : Int)
  | addPoint (p : TelemetryPoint)
  | completeLap (x : ℚ) (track car lap_id : String) (ms : Int)
  | savePending (x : ℚ) (lap_id : String) (ms : Int)
  | deleteLap (lap_id : String)
  | clearPending
  | resetSession

/-- The value returned by a `LapStorageService` call. -/
inductive OpOut where
  | unit
  | lapResult (r : Option LapData)
  | boolResult (b : Bool)
deriving DecidableEq

/-- Dispatch one call on the iRacing-adapter storage. -/
def Telemetry.applyOp (s : Telemetry.LapStorage) : LapOp → Telemetry.LapStorage × OpOut
  | .startLap n => (s.start_lap n, .unit)
  | .addPoint p => (s.add_point p, .unit)
  | .completeLap x t c i m =>
    ((s.complete_lap x t c i m).2, .lapResult (s.complete_lap x t c i m).1)
  | .savePending x i m =>
    ((s.save_pending_lap x i m).2, .lapResult (s.save_pending_lap x i m).1)
  | .deleteLap i => ((s.delete_lap i).2, .boolResult (s.delete_lap i).1)
  | .clearPending => (s.clear_pending_lap, .unit)
  | .resetSession => (s.reset_session, .unit)

/-- Dispatch one call on the LMU-adapter storage. -/
def LMU.applyOp (s : LMU.LapStorage) : LapOp → LMU.LapStorage × OpOut
  | .startLap n => (s.start_lap n, .unit)
  | .addPoint p => (s.add_point p, .unit)
  | .completeLap x t c i m =>
    ((s.complete_lap x t c i m).2, .lapResult (s.complete_lap x t c i m).1)
  | .savePending x i m =>
    ((s.save_pending_lap x i m).2, .lapResult (s.save_pending_lap x i m).1)
  | .deleteLap i => ((s.delete_lap i).2, .boolResult (s.delete_lap i).1)
  | .clearPending => (s.clear_pending_lap, .unit)
  | .resetSession => (s.reset_session, .unit)

/-- Run a call sequence on the iRacing-adapter storage, collecting results. -/
def Telemetry.runOps : Telemetry.LapStorage → List LapOp → Telemetry.LapStorage × List OpOut
  | s, [] => (s, [])
  | s, op :: ops =>
    ((Telemetry.runOps (Telemetry.applyOp s op).1 ops).1,
      (Telemetry.applyOp s op).2 :: (Telemetry.runOps (Telemetry.applyOp s op).1 ops).2)

/-- Run a call sequence on the LMU-adapter storage, collecting results. -/
def LMU.runOps : LMU.LapStorage → List LapOp → LMU.LapStorage × List OpOut
  | s, [] => (s, [])
  | s, op :: ops =>
    ((LMU.runOps (LMU.applyOp s op).1 ops).1,
      (LMU.applyOp s op).2 :: (LMU.runOps (LMU.applyOp s op).1 ops).2)

/-- The field-for-field correspondence between the two identical state
records. -/
def toLMU (s : Telemetry.LapStorage) : LMU.LapStorage :=
  ⟨s.max_laps, s.laps, s.session_best_id, s.session_best_time,
    s.current_lap_points, s.current_lap_number, s.recording_active,
    s.last_capture_time, s.last_distance_pct, s.pending_lap_points,
    s.pending_lap_number, s.pending_lap_track, s.pending_lap_car,
    s.pending_lap_created_at⟩

lemma findOldestGo_eq : LMU.findOldestGo = Telemetry.findOldestGo := by
  funext best acc L
  induction L generalizing acc with
  | nil => rfl
  | cons l ls ih =>
    simp only [LMU.findOldestGo, Telemetry.findOldestGo]
    rw [show LMU.ltOldest = Telemetry.ltOldest from rfl]
    split
    · exact ih _
    · exact ih _

lemma findOldest_eq : LMU.findOldest = Telemetry.findOldest := by
  funext laps best
  rw [LMU.findOldest, Telemetry.findOldest, findOldestGo_eq]

lemma enforceLimitGo_eq : LMU.enforceLimitGo = Telemetry.enforceLimitGo := by
  funext best maxL fuel
  induction fuel with
  | zero => funext L; rfl
  | succ n ih =>
    funext L
    simp only [LMU.enforceLimitGo, Telemetry.enforceLimitGo, findOldest_eq]
    split
    · rfl
    · cases hfo : Telemetry.findOldest L best with
      | none => rfl
      | some i =>
        rw [show LMU.removeId = Telemetry.removeId from rfl]
        exact congrFun ih (Telemetry.removeId L i)

lemma add_point_equiv (s : Telemetry.LapStorage) (p : TelemetryPoint) :
    LMU.LapStorage.add_point (toLMU s) p = toLMU (s.add_point p) := by
  rw [LMU.LapStorage.add_point, Telemetry.LapStorage.add_point]
  dsimp only [toLMU]
  split_ifs <;> rfl

lemma complete_lap_equiv (s : Telemetry.LapStorage) (x : ℚ) (t c i : String)
    (m : Int) :
    LMU.LapStorage.complete_lap (toLMU s) x t c i m =
      ((s.complete_lap x t c i m).1, toLMU (s.complete_lap x t c i m).2) := by
  rw [LMU.LapStorage.complete_lap, Telemetry.LapStorage.complete_lap]
  dsimp only [toLMU, LMU.LapStorage._enforce_limit, Telemetry.LapStorage._enforce_limit]
  simp only [enforceLimitGo_eq, findOldest_eq]
  split_ifs <;> rfl

lemma save_pending_lap_equiv (s : Telemetry.LapStorage) (x : ℚ) (i : String)
    (m : Int) :
    LMU.LapStorage.save_pending_lap (toLMU s) x i m =
      ((s.save_pending_lap x i m).1, toLMU (s.save_pending_lap x i m).2) := by
  rw [LMU.LapStorage.save_pending_lap, Telemetry.LapStorage.save_pending_lap]
  dsimp only [toLMU, LMU.LapStorage._enforce_limit, Telemetry.LapStorage._enforce_limit]
  simp only [enforceLimitGo_eq, findOldest_eq]
  split_ifs <;> rfl

lemma delete_lap_equiv (s : Telemetry.LapStorage) (i : String) :
    LMU.LapStorage.delete_lap (toLMU s) i =
      ((s.delete_lap i).1, toLMU (s.delete_lap i).2) := by
  rw [LMU.LapStorage.delete_lap, Telemetry.LapStorage.delete_lap]
  dsimp only [toLMU]
  split_ifs <;> rfl

lemma applyOp_equiv (s : Telemetry.LapStorage) (op : LapOp) :
    LMU.applyOp (toLMU s) op =
      (toLMU (Telemetry.applyOp s op).1, (Telemetry.applyOp s op).2) := by
  cases op with
  | startLap n => rfl
  | addPoint p =>
    simp only [LMU.applyOp, Telemetry.applyOp, add_point_equiv]
  | completeLap x t c i m =>
    simp only [LMU.applyOp, Telemetry.applyOp, complete_lap_equiv]
  | savePending x i m =>
    simp only [LMU.applyOp, Telemetry.applyOp, save_pending_lap_equiv]
  | deleteLap i =>
    simp only [LMU.applyOp, Telemetry.applyOp, delete_lap_equiv]
  | clearPending => rfl
  | resetSession => rfl

/-- C10: the two `LapStorageService` implementations are behaviourally
equivalent: any call sequence from the initial state returns identical
results and reaches corresponding states. -/
theorem C10_adapter_equivalence (max_laps : Nat) (ops : List LapOp) :
    LMU.runOps (LMU.LapStorage.init max_laps) ops =
      (toLMU (Telemetry.runOps (Telemetry.LapStorage.init max_laps) ops).1,
        (Telemetry.runOps (Telemetry.LapStorage.init max_laps) ops).2) := by
  have hrun : ∀ (ops : List LapOp) (s : Telemetry.LapStorage),
      LMU.runOps (toLMU s) ops =
        (toLMU (Telemetry.runOps s ops).1, (Telemetry.runOps s ops).2) := by
    intro ops
    induction ops with
    | nil => intro s; rfl
    | cons op ops ih =>
      intro s
      rw [LMU.runOps, Telemetry.runOps, applyOp_equiv s op, ih (Telemetry.applyOp s op).1]
  have hinit : LMU.LapStorage.init max_laps = toLMU (Telemetry.LapStorage.init max_laps) := rfl
  rw [hinit, hrun]

namespace Telemetry

lemma revokeBest_length (L : List LapData) (bid : Option String) :
    (revokeBest L bid).length = L.length := by
  cases bid with
  | none => rfl
  | some b => simp [revokeBest]

lemma enforceLimitGo_noop {best : Option String} {maxL : Nat} {L : List LapData}
    (h : L.length ≤ maxL) : ∀ fuel, enforceLimitGo best maxL fuel L = L := by
  intro fuel
  cases fuel with
  | zero => rfl
  | succ n => rw [enforceLimitGo, if_pos h]

lemma add_point_laps (s : LapStorage) (p : TelemetryPoint) :
    (s.add_point p).laps = s.laps := by
  rw [LapStorage.add_point]
  split_ifs <;> rfl

lemma add_point_pending (s : LapStorage) (p : TelemetryPoint) :
    (s.add_point p).pending_lap_points = s.pending_lap_points := by
  rw [LapStorage.add_point]
  split_ifs <;> rfl

end Telemetry

/-- C5: while a pending lap is buffered, a tick later than 10 s after its
creation with no valid time clears it without storing anything; a tick within
the window that observes a valid time resolves it through `save_pending_lap`
into a lap whose points are exactly the buffered pending points. -/
theorem C5_pending_timeout_and_resolution (st : CaptureState) (inp : CaptureInput)
    (hgate : ¬ (inp.now - st.last_lap_capture_time < LAP_CAPTURE_INTERVAL)) :
    (0 < st.storage.pending_lap_points.length →
      inp.now - st.storage.pending_lap_created_at > 10.0 →
      inp.last_lap_time ≤ 0 →
      (capture_lap_telemetry st inp).1 = none ∧
      (capture_lap_telemetry st inp).2.storage.laps = st.storage.laps ∧
      (¬ (inp.current_lap > st.prev_lap_for_capture ∧ st.prev_lap_for_capture > 0) →
        (capture_lap_telemetry st inp).2.storage.pending_lap_points = [])) ∧
    (100 ≤ st.storage.pending_lap_points.length →
      ¬ (inp.now - st.storage.pending_lap_created_at > 10.0) →
      inp.last_lap_time > 0 →
      ¬ (inp.last_lap_time < 10.0 ∨ inp.last_lap_time > 1200.0) →
      (capture_lap_telemetry st inp).1 =
        some ⟨inp.pending_lap_id, st.storage.pending_lap_number,
          round3 inp.last_lap_time,
          ltBest inp.last_lap_time st.storage.session_best_time,
          st.storage.pending_lap_track, st.storage.pending_lap_car, inp.nowMs,
          st.storage.pending_lap_points,
          deltaToBest inp.last_lap_time st.storage.session_best_time⟩ ∧
      ((∀ l ∈ st.storage.laps, l.id ≠ inp.pending_lap_id) →
        st.storage.laps.length < st.storage.max_laps →
        ∃ l ∈ (capture_lap_telemetry st inp).2.storage.laps,
          l.id = inp.pending_lap_id ∧
          l.points = st.storage.pending_lap_points)) := by
  constructor
  · intro hpos hage hlt
    rw [capture_lap_telemetry, if_neg hgate]
    dsimp only
    rw [if_pos hpos, if_pos hage]
    dsimp only
    by_cases hbd : inp.current_lap > st.prev_lap_for_capture ∧ st.prev_lap_for_capture > 0
    · rw [if_pos hbd]
      have hlt2 : ¬ (inp.last_lap_time > 0) := by exact not_lt.2 hlt
      rw [if_neg hlt2]
      split_ifs <;> exact ⟨rfl, rfl, fun hc => absurd hbd hc⟩
    · rw [if_neg hbd]
      split_ifs <;> refine ⟨rfl, ?_, fun _ => ?_⟩ <;>
        simp [Telemetry.add_point_laps, Telemetry.add_point_pending,
          Telemetry.LapStorage.start_lap, Telemetry.LapStorage.clear_pending_lap]
  · intro hlen hage hlt hrange
    have hpos : 0 < st.storage.pending_lap_points.length := by omega
    have hne : ¬ (st.storage.pending_lap_points = [] ∨
        st.storage.pending_lap_points.length < 100) := by
      rintro (hnil | hshort)
      · rw [hnil] at hpos; simp at hpos
      · omega
    rw [capture_lap_telemetry, if_neg hgate]
    dsimp only
    rw [if_pos hpos, if_neg hage, if_pos hlt]
    rw [Telemetry.LapStorage.save_pending_lap, if_neg hne, if_neg hrange]
    dsimp only
    refine ⟨rfl, ?_⟩
    intro hfresh hcap
    dsimp only [Telemetry.LapStorage._enforce_limit]
    set lap : LapData :=
      ⟨inp.pending_lap_id, st.storage.pending_lap_number,
        round3 inp.last_lap_time,
        ltBest inp.last_lap_time st.storage.session_best_time,
        st.storage.pending_lap_track, st.storage.pending_lap_car, inp.nowMs,
        st.storage.pending_lap_points,
        deltaToBest inp.last_lap_time st.storage.session_best_time⟩ with hlap
    cases hb : ltBest inp.last_lap_time st.storage.session_best_time with
    | true =>
      simp only [hb, if_true]
      have hrev : ∀ l ∈ Telemetry.revokeBest st.storage.laps
          st.storage.session_best_id, l.id ≠ lap.id := by
        cases hsb : st.storage.session_best_id with
        | none => intro l hl; exact hfresh l hl
        | some b =>
          intro l hl
          obtain ⟨l0, hl0, hfl⟩ := Telemetry.mem_revokeBest hl
          rw [hfl, Telemetry.revokeElem_id]
          exact hfresh l0 hl0
      rw [Telemetry.dictInsert_fresh hrev]
      rw [Telemetry.enforceLimitGo_noop (by
        rw [List.length_append, Telemetry.revokeBest_length]
        simpa using hcap)]
      exact ⟨lap, List.mem_append.2 (Or.inr (by simp)), rfl, rfl⟩
    | false =>
      simp only [hb, Bool.false_eq_true, if_false]
      rw [Telemetry.dictInsert_fresh hfresh]
      rw [Telemetry.enforceLimitGo_noop (by
        rw [List.length_append]
        simpa using hcap)]
      exact ⟨lap, List.mem_append.2 (Or.inr (by simp)), rfl, rfl⟩

/-- A service with a 100-point pending lap created at t = 50. -/
def c5state : CaptureState :=
  { storage :=
      { Telemetry.LapStorage.init 10 with
        pending_lap_points := List.replicate 100 pt0
        pending_lap_number := 3
        pending_lap_track := "Spa"
        pending_lap_car := "GT3"
        pending_lap_created_at := 50 }
    prev_lap_for_capture := 4
    last_lap_capture_time := 0 }

/-- A tick at t = 55 observing `LapLastLapTime = 88.2`. -/
def c5input : CaptureInput :=
  { now := 55, current_lap := 4, lap_dist_pct := 0.5, last_lap_time := 88.2,
    track_name := "Spa", car_name := "GT3", pending_lap_id := "p1",
    lap_id := "l1", nowMs := 55000, player_surface := 4, point := pt0 }

/-- Witness for C5: the pending lap resolves into a stored lap carrying
exactly the buffered points. -/
theorem C5_pending_timeout_and_resolution_witness :
    (capture_lap_telemetry c5state c5input).1.isSome = true ∧
    (∃ l ∈ (capture_lap_telemetry c5state c5input).2.storage.laps,
      l.id = "p1" ∧ l.points = c5state.storage.pending_lap_points) := by
  have h := C5_pending_timeout_and_resolution c5state c5input
    (by with_unfolding_all exact of_decide_eq_true rfl)
  have h2 := h.2 (by decide)
    (by with_unfolding_all exact of_decide_eq_true rfl)
    (by with_unfolding_all exact of_decide_eq_true rfl)
    (by with_unfolding_all exact of_decide_eq_true rfl)
  refine ⟨by rw [h2.1]; rfl, ?_⟩
  exact h2.2 (fun l hl => absurd hl (List.not_mem_nil l)) (by decide)

/-- A recording with exactly 100 buffered points about to cross the lap
boundary. -/
def c6state : CaptureState :=
  { storage :=
      { Telemetry.LapStorage.init 10 with
        recording_active := true
        current_lap_points := List.replicate 100 pt0
        current_lap_number := 1 }
    prev_lap_for_capture := 1
    last_lap_capture_time := 0 }

/-- A boundary tick (lap 1 → 2) with `LapLastLapTime = 0`. -/
def c6input : CaptureInput :=
  { now := 1, current_lap := 2, lap_dist_pct := 0, last_lap_time := 0,
    track_name := "Spa", car_name := "GT3", pending_lap_id := "p1",
    lap_id := "l1", nowMs := 1000, player_surface := 4, point := pt0 }

/-- C6 counterexample: a lap boundary with an invalid time and exactly 100
buffered points (the minimum threshold) creates no pending lap — the code
requires strictly more than `MIN_LAP_POINTS` points, so the claimed
`at least 100` trigger fails at 100. -/
theorem C6_counterexample :
    c6state.storage.current_lap_points.length = MIN_LAP_POINTS ∧
    c6input.current_lap > c6state.prev_lap_for_capture ∧
    c6state.prev_lap_for_capture > 0 ∧
    c6input.last_lap_time ≤ 0 ∧
    (capture_lap_telemetry c6state c6input).2.storage.pending_lap_points = [] := by
  refine ⟨by decide, by decide, by decide, ?_, ?_⟩
  · with_unfolding_all exact of_decide_eq_true rfl
  · with_unfolding_all exact of_decide_eq_true rfl

/-- C6 (amended): on a lap boundary with `last_lap_time <= 0` (and no pending
timeout firing this tick) a pending lap is created — buffer snapshot, lap
number, track/car names, creation timestamp — exactly when strictly more than
`MIN_LAP_POINTS` (100) points are buffered; with 100 or fewer points the
boundary data is dropped and the pending fields are left untouched; in every
case no lap is returned and the recorder immediately starts recording the new
lap. -/
theorem C6_pending_creation (st : CaptureState) (inp : CaptureInput)
    (hgate : ¬ (inp.now - st.last_lap_capture_time < LAP_CAPTURE_INTERVAL))
    (hquiet : st.storage.pending_lap_points = [] ∨
      ¬ (inp.now - st.storage.pending_lap_created_at > 10.0))
    (hbd : inp.current_lap > st.prev_lap_for_capture ∧
      st.prev_lap_for_capture > 0)
    (hlt : ¬ (inp.last_lap_time > 0)) :
    (capture_lap_telemetry st inp).1 = none ∧
    (capture_lap_telemetry st inp).2.storage.recording_active = true ∧
    (capture_lap_telemetry st inp).2.storage.current_lap_number =
      inp.current_lap ∧
    (capture_lap_telemetry st inp).2.storage.current_lap_points = [] ∧
    (st.storage.current_lap_points.length > MIN_LAP_POINTS →
      (capture_lap_telemetry st inp).2.storage.pending_lap_points =
        st.storage.current_lap_points ∧
      (capture_lap_telemetry st inp).2.storage.pending_lap_number =
        st.prev_lap_for_capture ∧
      (capture_lap_telemetry st inp).2.storage.pending_lap_track =
        inp.track_name ∧
      (capture_lap_telemetry st inp).2.storage.pending_lap_car =
        inp.car_name ∧
      (capture_lap_telemetry st inp).2.storage.pending_lap_created_at =
        inp.now) ∧
    (¬ (st.storage.current_lap_points.length > MIN_LAP_POINTS) →
      (capture_lap_telemetry st inp).2.storage.pending_lap_points =
        st.storage.pending_lap_points ∧
      (capture_lap_telemetry st inp).2.storage.pending_lap_number =
        st.storage.pending_lap_number ∧
      (capture_lap_telemetry st inp).2.storage.pending_lap_created_at =
        st.storage.pending_lap_created_at) := by
  rw [capture_lap_telemetry, if_neg hgate]
  dsimp only
  by_cases hpp : 0 < st.storage.pending_lap_points.length
  · have hage : ¬ (inp.now - st.storage.pending_lap_created_at > 10.0) := by
      rcases hquiet with hnil | hq
      · rw [hnil] at hpp; simp at hpp
      · exact hq
    rw [if_pos hpp, if_neg hage, if_neg hlt]
    dsimp only
    rw [if_pos hbd, if_neg hlt]
    by_cases hpts : st.storage.current_lap_points.length > MIN_LAP_POINTS
    · rw [if_pos hpts]
      exact ⟨rfl, rfl, rfl, rfl, fun _ => ⟨rfl, rfl, rfl, rfl, rfl⟩,
        fun hc => absurd hpts hc⟩
    · rw [if_neg hpts]
      exact ⟨rfl, rfl, rfl, rfl, fun hc => absurd hc hpts,
        fun _ => ⟨rfl, rfl, rfl⟩⟩
  · rw [if_neg hpp]
    dsimp only
    rw [if_pos hbd, if_neg hlt]
    by_cases hpts : st.storage.current_lap_points.length > MIN_LAP_POINTS
    · rw [if_pos hpts]
      exact ⟨rfl, rfl, rfl, rfl, fun _ => ⟨rfl, rfl, rfl, rfl, rfl⟩,
        fun hc => absurd hpts hc⟩
    · rw [if_neg hpts]
      exact ⟨rfl, rfl, rfl, rfl, fun hc => absurd hc hpts,
        fun _ => ⟨rfl, rfl, rfl⟩⟩

/-- A recording with 101 buffered points about to cross the lap boundary. -/
def c6wstate : CaptureState :=
  { storage :=
      { Telemetry.LapStorage.init 10 with
        recording_active := true
        current_lap_points := List.replicate 101 pt0
        current_lap_number := 1 }
    prev_lap_for_capture := 1
    last_lap_capture_time := 0 }

/-- Witness for C6 (amended): with 101 points the boundary creates the
pending lap and restarts the recorder. -/
theorem C6_pending_creation_witness :
    (capture_lap_telemetry c6wstate c6input).1 = none ∧
    (capture_lap_telemetry c6wstate c6input).2.storage.pending_lap_points =
      c6wstate.storage.current_lap_points ∧
    (capture_lap_telemetry c6wstate c6input).2.storage.recording_active = true := by
  have h := C6_pending_creation c6wstate c6input
    (by with_unfolding_all exact of_decide_eq_true rfl)
    (Or.inl rfl)
    (by decide)
    (by with_unfolding_all exact of_decide_eq_true rfl)
  exact ⟨h.1, (h.2.2.2.2.1 (by decide)).1, h.2.1⟩

/-- Spotter state in `car_left` whose last emission happened at t = 10. -/
def c7emit : SpotterEmitState :=
  { st :=
      { spotter_state := "car_left"
        spotter_frames_in_state := 0
        spotter_last_call := 10
        spotter_cooldown := 1.0
        spotter_still_interval := 2.0 }
    _last_spotter_emit := 10 }

/-- C7 counterexample: 0.3 s after the last emitted spotter event, the state
machine leaves `car_left` for `clear`, but `detect_events` suppresses the
event (its 0.5 s duplicate guard), so nothing is emitted on that tick. -/
theorem C7_counterexample :
    c7emit.st.spotter_state = "car_left" ∧
    (detectSpotterSlice c7emit 10.3 10.3 false false).2.st.spotter_state =
      "clear" ∧
    (detectSpotterSlice c7emit 10.3 10.3 false false).1 = none := by
  refine ⟨rfl, ?_, ?_⟩
  · with_unfolding_all exact of_decide_eq_true rfl
  · with_unfolding_all exact of_decide_eq_true rfl

/-- C7 (amended): on a transition from a threat state into `clear` the state
machine itself emits immediately (no cooldown), with the variant determined by
the state being left (`clear_all_around`, `clear_left`, `clear_right`); but
the `detect_events` spotter block appends the event only if at least 0.5 s
elapsed since the last emitted spotter event, silently dropping it otherwise
(the state still becomes `clear` on that tick either way). -/
theorem C7_clear_transition (e : SpotterEmitState) (now ct : ℚ)
    (hthreat : e.st.spotter_state = "car_left" ∨
      e.st.spotter_state = "car_right" ∨
      e.st.spotter_state = "three_wide") :
    (_update_spotter_state e.st now false false).1 =
      some (if e.st.spotter_state = "three_wide" then "clear_all_around"
        else if e.st.spotter_state = "car_left" then "clear_left"
        else "clear_right") ∧
    (_update_spotter_state e.st now false false).2.spotter_state = "clear" ∧
    (ct - e._last_spotter_emit ≥ 0.5 →
      (detectSpotterSlice e now ct false false).1 =
        (_update_spotter_state e.st now false false).1) ∧
    (¬ (ct - e._last_spotter_emit ≥ 0.5) →
      (detectSpotterSlice e now ct false false).1 = none) ∧
    (detectSpotterSlice e now ct false false).2.st.spotter_state = "clear" := by
  have hne : ¬ ("clear" ≠ e.st.spotter_state) = False := by
    rcases hthreat with h | h | h <;> rw [h] <;> simp
  have hstep : (_update_spotter_state e.st now false false).1 =
      some (if e.st.spotter_state = "three_wide" then "clear_all_around"
        else if e.st.spotter_state = "car_left" then "clear_left"
        else "clear_right") ∧
      (_update_spotter_state e.st now false false).2.spotter_state = "clear" := by
    rw [_update_spotter_state]
    rcases hthreat with h | h | h <;>
      simp [h]
  refine ⟨hstep.1, hstep.2, ?_, ?_, ?_⟩
  · intro hg
    simp only [detectSpotterSlice, hstep.1]
    rw [if_pos hg]
  · intro hg
    simp only [detectSpotterSlice, hstep.1]
    rw [if_neg hg]
  · simp only [detectSpotterSlice, hstep.1]
    split_ifs <;> exact hstep.2

/-- Spotter state in `three_wide` with an old last emission. -/
def c7wemit : SpotterEmitState :=
  { st :=
      { spotter_state := "three_wide"
        spotter_frames_in_state := 2
        spotter_last_call := 0
        spotter_cooldown := 1.0
        spotter_still_interval := 2.0 }
    _last_spotter_emit := 0 }

/-- Witness for C7 (amended) at a concrete input: leaving `three_wide` yields
`clear_all_around`, emitted because 5 s passed since the last emission. -/
theorem C7_clear_transition_witness :
    (_update_spotter_state c7wemit.st 5 false false).1 =
      some "clear_all_around" ∧
    (detectSpotterSlice c7wemit 5 5 false false).1 =
      some "clear_all_around" := by
  have h := C7_clear_transition c7wemit 5 5 (Or.inr (Or.inr rfl))
  have hg : (5 : ℚ) - c7wemit._last_spotter_emit ≥ 0.5 := by
    with_unfolding_all exact of_decide_eq_true rfl
  refine ⟨?_, ?_⟩
  · rw [h.1]; rfl
  · rw [h.2.2.1 hg, h.1]; rfl

/-! ### Sector-tracker lemmas (claim C8) -/

lemma updateCarState_same (st : CarState) (d τ : ℚ)
    (h : _get_sector_from_dist d = st.last_sector) :
    updateCarState st d τ =
      { st with last_dist := d, last_session_time := τ } := by
  rw [updateCarState]
  dsimp only
  rw [if_neg (not_ne_iff.2 h)]

lemma updateCarState_wrap (st : CarState) (d τ : ℚ)
    (h3 : st.last_sector = 3) (h1 : _get_sector_from_dist d = 1) :
    updateCarState st d τ =
      if 0 < τ - st.sector_start_time ∧ τ - st.sector_start_time < 300 then
        { st with
          s3 := some (round3 (τ - st.sector_start_time))
          sector_start_time := τ
          last_sector := 1
          last_dist := d
          last_session_time := τ }
      else
        { st with
          sector_start_time := τ
          last_sector := 1
          last_dist := d
          last_session_time := τ } := by
  rw [updateCarState]
  dsimp only
  rw [if_pos (by rw [h1, h3]; decide), if_pos ⟨h3, h1⟩]
  split_ifs with hv
  · rw [h1]
  · rw [h1]

lemma updateCarState_forward (st : CarState) (d τ : ℚ)
    (h : _get_sector_from_dist d = st.last_sector + 1) :
    updateCarState st d τ =
      if 0 < τ - st.sector_start_time ∧ τ - st.sector_start_time < 300 then
        { setSectorTime st st.last_sector (round3 (τ - st.sector_start_time)) with
          sector_start_time := τ
          last_sector := st.last_sector + 1
          last_dist := d
          last_session_time := τ }
      else
        { st with
          sector_start_time := τ
          last_sector := st.last_sector + 1
          last_dist := d
          last_session_time := τ } := by
  rw [updateCarState]
  dsimp only
  rw [if_pos (by rw [h]; omega)]
  rw [if_neg (by rintro ⟨hl3, hc1⟩; rw [hl3] at h; rw [h] at hc1; cases hc1)]
  rw [if_pos h]
  split_ifs with hv
  · rw [h]
  · rw [h]

lemma updateCarState_other (st : CarState) (d τ : ℚ)
    (hne : _get_sector_from_dist d ≠ st.last_sector)
    (hw : ¬ (st.last_sector = 3 ∧ _get_sector_from_dist d = 1))
    (hf : _get_sector_from_dist d ≠ st.last_sector + 1) :
    updateCarState st d τ =
      { st with
        last_sector := _get_sector_from_dist d
        last_dist := d
        last_session_time := τ } := by
  rw [updateCarState]
  dsimp only
  rw [if_pos hne, if_neg hw, if_neg hf]

lemma processCar_offtrack (states : List (Nat × CarState)) (car_idx : Nat)
    (dists : List ℚ) (surfs : List Int) (τ : ℚ)
    (hlen : car_idx < surfs.length) (hsurf : surfs.getD car_idx 0 < 0) :
    processCar states car_idx dists surfs τ = states := by
  rw [processCar]
  by_cases hd : dists.getD car_idx 0 < 0
  · rw [if_pos (Or.inl hd)]
  · rw [if_neg (by push_neg; exact ⟨le_of_not_lt hd, hlen⟩), if_pos hsurf]

/-- A tracked car state holds only sector times inside `[0, 300]`. -/
def validCar (st : CarState) : Prop :=
  (∀ v, st.s1 = some v → 0 ≤ v ∧ v ≤ 300) ∧
  (∀ v, st.s2 = some v → 0 ≤ v ∧ v ≤ 300) ∧
  (∀ v, st.s3 = some v → 0 ≤ v ∧ v ≤ 300)

/-- All tracked car states hold only sector times inside `[0, 300]`. -/
def validCars (states : List (Nat × CarState)) : Prop :=
  ∀ p ∈ states, validCar p.2

lemma validCar_update {st : CarState} (h : validCar st) (d τ : ℚ) :
    validCar (updateCarState st d τ) := by
  set t := τ - st.sector_start_time with ht
  by_cases hsame : _get_sector_from_dist d = st.last_sector
  · rw [updateCarState_same st d τ hsame]
    exact h
  · by_cases hwrap : st.last_sector = 3 ∧ _get_sector_from_dist d = 1
    · rw [updateCarState_wrap st d τ hwrap.1 hwrap.2]
      split_ifs with hv
      · refine ⟨h.1, h.2.1, ?_⟩
        intro v hv2
        have : v = round3 t := by simpa using hv2.symm
        subst this
        exact round3_sector_bounds (le_of_lt hv.1) (le_of_lt hv.2)
      · exact h
    · by_cases hfwd : _get_sector_from_dist d = st.last_sector + 1
      · rw [updateCarState_forward st d τ hfwd]
        split_ifs with hv
        · rw [setSectorTime]
          have hb := round3_sector_bounds (le_of_lt hv.1) (le_of_lt hv.2)
          split_ifs with h1 h2 h3
          · refine ⟨?_, h.2.1, h.2.2⟩
            intro v hv2
            have : v = round3 t := by simpa using hv2.symm
            subst this
            exact hb
          · refine ⟨h.1, ?_, h.2.2⟩
            intro v hv2
            have : v = round3 t := by simpa using hv2.symm
            subst this
            exact hb
          · refine ⟨h.1, h.2.1, ?_⟩
            intro v hv2
            have : v = round3 t := by simpa using hv2.symm
            subst this
            exact hb
          · exact h
        · exact h
      · rw [updateCarState_other st d τ hsame hwrap hfwd]
        exact h

lemma lookupCar_valid {states : List (Nat × CarState)} {i : Nat} {st : CarState}
    (h : validCars states) (hl : lookupCar states i = some st) : validCar st := by
  rw [lookupCar] at hl
  cases hf : states.find? fun p => p.1 = i with
  | none => rw [hf] at hl; cases hl
  | some p =>
    rw [hf] at hl
    have hps : p.2 = st := by simpa using hl
    have hmem := List.mem_of_find?_eq_some hf
    rw [← hps]
    exact h p hmem

lemma validCars_setCar {states : List (Nat × CarState)} {i : Nat} {st : CarState}
    (h : validCars states) (hst : validCar st) :
    validCars (setCar states i st) := by
  rw [setCar]
  split_ifs
  · intro p hp
    obtain ⟨q, hq, hfq⟩ := List.mem_map.1 hp
    rw [← hfq]
    split_ifs
    · exact hst
    · exact h q hq
  · intro p hp
    rcases List.mem_append.1 hp with hle | hri
    · exact h p hle
    · have : p = (i, st) := by simpa using hri
      subst this
      exact hst

lemma validCars_processCar {states : List (Nat × CarState)}
    (h : validCars states) (car_idx : Nat) (dists : List ℚ) (surfs : List Int)
    (τ : ℚ) : validCars (processCar states car_idx dists surfs τ) := by
  rw [processCar]
  split_ifs
  · exact h
  · exact h
  · cases hl : lookupCar states car_idx with
    | none =>
      exact validCars_setCar h
        ⟨fun v hv => Option.noConfusion hv, fun v hv => Option.noConfusion hv,
          fun v hv => Option.noConfusion hv⟩
    | some st =>
      exact validCars_setCar h (validCar_update (lookupCar_valid h hl) _ _)

lemma validCars_sectorUpdate {states : List (Nat × CarState)}
    (h : validCars states) (dists : List ℚ) (surfs : List Int) (τ : ℚ) :
    validCars (sectorUpdate states dists surfs τ) := by
  rw [sectorUpdate]
  generalize List.range (min dists.length 64) = idxs
  induction idxs generalizing states with
  | nil => exact h
  | cons i is ih => exact ih (validCars_processCar h i dists surfs τ)

lemma validCars_sectorRun {states : List (Nat × CarState)}
    (h : validCars states) (frames : List (List ℚ × List Int × ℚ)) :
    validCars (sectorRun states frames) := by
  rw [sectorRun]
  induction frames generalizing states with
  | nil => exact h
  | cons f fs ih => exact ih (validCars_sectorUpdate h f.1 f.2.1 f.2.2)

/-- A car tracked in sector 3, sector started at t = 10. -/
def c8car : CarState :=
  { last_dist := 0.9
    last_sector := 3
    s1 := none
    s2 := none
    s3 := none
    sector_start_time := 10
    last_session_time := 10 }

/-- C8 counterexample: a legitimate 3→1 wrap whose elapsed time 0.0004 s lies
strictly inside (0, 300) records `round(0.0004, 3) = 0.0` into `s3` — the
recorded value is not strictly between 0 and 300. -/
theorem C8_counterexample :
    c8car.s3 = none ∧
    (updateCarState c8car 0.1 10.0004).s3 = some 0 ∧
    0 < (10.0004 : ℚ) - c8car.sector_start_time ∧
    (10.0004 : ℚ) - c8car.sector_start_time < 300 ∧
    ¬ (0 : ℚ) < 0 := by
  refine ⟨rfl, ?_, ?_, ?_, ?_⟩
  · with_unfolding_all exact of_decide_eq_true rfl
  · with_unfolding_all exact of_decide_eq_true rfl
  · with_unfolding_all exact of_decide_eq_true rfl
  · with_unfolding_all exact of_decide_eq_true rfl

/-- C8 (amended): off-track cars (negative surface flag) are skipped
untouched; a sector time is recorded only on the 3→1 wrap or a forward
adjacent transition, always as `round3` of an elapsed time strictly inside
(0, 300), so the stored value lies in the closed interval `[0, 300]` (rounding
can hit an endpoint); any other transition records nothing and only jumps
`last_sector`; consequently, over any sequence of frames all recorded sector
times stay within `[0, 300]`. -/
theorem C8_sector_rules (states : List (Nat × CarState)) (car_idx : Nat)
    (dists : List ℚ) (surfs : List Int) (τ : ℚ) (st : CarState) (d : ℚ)
    (frames : List (List ℚ × List Int × ℚ)) :
    (car_idx < surfs.length → surfs.getD car_idx 0 < 0 →
      processCar states car_idx dists surfs τ = states) ∧
    (((updateCarState st d τ).s1 ≠ st.s1 ∨ (updateCarState st d τ).s2 ≠ st.s2 ∨
        (updateCarState st d τ).s3 ≠ st.s3) →
      ((st.last_sector = 3 ∧ _get_sector_from_dist d = 1) ∨
        _get_sector_from_dist d = st.last_sector + 1) ∧
      0 < τ - st.sector_start_time ∧ τ - st.sector_start_time < 300) ∧
    ((updateCarState st d τ).s1 ≠ st.s1 →
      (updateCarState st d τ).s1 = some (round3 (τ - st.sector_start_time)) ∧
      0 ≤ round3 (τ - st.sector_start_time) ∧
      round3 (τ - st.sector_start_time) ≤ 300) ∧
    ((updateCarState st d τ).s2 ≠ st.s2 →
      (updateCarState st d τ).s2 = some (round3 (τ - st.sector_start_time)) ∧
      0 ≤ round3 (τ - st.sector_start_time) ∧
      round3 (τ - st.sector_start_time) ≤ 300) ∧
    ((updateCarState st d τ).s3 ≠ st.s3 →
      (updateCarState st d τ).s3 = some (round3 (τ - st.sector_start_time)) ∧
      0 ≤ round3 (τ - st.sector_start_time) ∧
      round3 (τ - st.sector_start_time) ≤ 300) ∧
    (_get_sector_from_dist d ≠ st.last_sector →
      ¬ (st.last_sector = 3 ∧ _get_sector_from_dist d = 1) →
      _get_sector_from_dist d ≠ st.last_sector + 1 →
      (updateCarState st d τ).s1 = st.s1 ∧ (updateCarState st d τ).s2 = st.s2 ∧
      (updateCarState st d τ).s3 = st.s3 ∧
      (updateCarState st d τ).last_sector = _get_sector_from_dist d ∧
      (updateCarState st d τ).sector_start_time = st.sector_start_time) ∧
    (validCars states → validCars (sectorRun states frames)) := by
  have hmain :
      ((((updateCarState st d τ).s1 ≠ st.s1 ∨ (updateCarState st d τ).s2 ≠ st.s2 ∨
          (updateCarState st d τ).s3 ≠ st.s3) →
        ((st.last_sector = 3 ∧ _get_sector_from_dist d = 1) ∨
          _get_sector_from_dist d = st.last_sector + 1) ∧
        0 < τ - st.sector_start_time ∧ τ - st.sector_start_time < 300) ∧
      ((updateCarState st d τ).s1 ≠ st.s1 →
        (updateCarState st d τ).s1 = some (round3 (τ - st.sector_start_time)) ∧
        0 ≤ round3 (τ - st.sector_start_time) ∧
        round3 (τ - st.sector_start_time) ≤ 300) ∧
      ((updateCarState st d τ).s2 ≠ st.s2 →
        (updateCarState st d τ).s2 = some (round3 (τ - st.sector_start_time)) ∧
        0 ≤ round3 (τ - st.sector_start_time) ∧
        round3 (τ - st.sector_start_time) ≤ 300) ∧
      ((updateCarState st d τ).s3 ≠ st.s3 →
        (updateCarState st d τ).s3 = some (round3 (τ - st.sector_start_time)) ∧
        0 ≤ round3 (τ - st.sector_start_time) ∧
        round3 (τ - st.sector_start_time) ≤ 300) ∧
      (_get_sector_from_dist d ≠ st.last_sector →
        ¬ (st.last_sector = 3 ∧ _get_sector_from_dist d = 1) →
        _get_sector_from_dist d ≠ st.last_sector + 1 →
        (updateCarState st d τ).s1 = st.s1 ∧ (updateCarState st d τ).s2 = st.s2 ∧
        (updateCarState st d τ).s3 = st.s3 ∧
        (updateCarState st d τ).last_sector = _get_sector_from_dist d ∧
        (updateCarState st d τ).sector_start_time = st.sector_start_time)) := by
    by_cases hsame : _get_sector_from_dist d = st.last_sector
    · rw [updateCarState_same st d τ hsame]
      refine ⟨?_, ?_, ?_, ?_, ?_⟩
      · rintro (hc | hc | hc) <;> exact absurd rfl hc
      · intro hc; exact absurd rfl hc
      · intro hc; exact absurd rfl hc
      · intro hc; exact absurd rfl hc
      · intro hne _ _; exact absurd hsame hne
    · by_cases hwrap : st.last_sector = 3 ∧ _get_sector_from_dist d = 1
      · rw [updateCarState_wrap st d τ hwrap.1 hwrap.2]
        split_ifs with hv
        · have hb := round3_sector_bounds (le_of_lt hv.1) (le_of_lt hv.2)
          refine ⟨?_, ?_, ?_, ?_, ?_⟩
          · intro _; exact ⟨Or.inl hwrap, hv⟩
          · intro hc; exact absurd rfl hc
          · intro hc; exact absurd rfl hc
          · intro _; exact ⟨rfl, hb.1, hb.2⟩
          · intro _ hw _; exact absurd hwrap hw
        · refine ⟨?_, ?_, ?_, ?_, ?_⟩
          · rintro (hc | hc | hc) <;> exact absurd rfl hc
          · intro hc; exact absurd rfl hc
          · intro hc; exact absurd rfl hc
          · intro hc; exact absurd rfl hc
          · intro _ hw _; exact absurd hwrap hw
      · by_cases hfwd : _get_sector_from_dist d = st.last_sector + 1
        · rw [updateCarState_forward st d τ hfwd]
          split_ifs with hv
          · have hb := round3_sector_bounds (le_of_lt hv.1) (le_of_lt hv.2)
            rw [setSectorTime]
            split_ifs with h1 h2 h3
            · refine ⟨?_, ?_, ?_, ?_, ?_⟩
              · intro _; exact ⟨Or.inr hfwd, hv⟩
              · intro _; exact ⟨rfl, hb.1, hb.2⟩
              · intro hc; exact absurd rfl hc
              · intro hc; exact absurd rfl hc
              · intro _ _ hf; exact absurd hfwd hf
            · refine ⟨?_, ?_, ?_, ?_, ?_⟩
              · intro _; exact ⟨Or.inr hfwd, hv⟩
              · intro hc; exact absurd rfl hc
              · intro _; exact ⟨rfl, hb.1, hb.2⟩
              · intro hc; exact absurd rfl hc
              · intro _ _ hf; exact absurd hfwd hf
            · refine ⟨?_, ?_, ?_, ?_, ?_⟩
              · intro _; exact ⟨Or.inr hfwd, hv⟩
              · intro hc; exact absurd rfl hc
              · intro hc; exact absurd rfl hc
              · intro _; exact ⟨rfl, hb.1, hb.2⟩
              · intro _ _ hf; exact absurd hfwd hf
            · refine ⟨?_, ?_, ?_, ?_, ?_⟩
              · rintro (hc | hc | hc) <;> exact absurd rfl hc
              · intro hc; exact absurd rfl hc
              · intro hc; exact absurd rfl hc
              · intro hc; exact absurd rfl hc
              · intro _ _ hf; exact absurd hfwd hf
          · refine ⟨?_, ?_, ?_, ?_, ?_⟩
            · rintro (hc | hc | hc) <;> exact absurd rfl hc
            · intro hc; exact absurd rfl hc
            · intro hc; exact absurd rfl hc
            · intro hc; exact absurd rfl hc
            · intro _ _ hf; exact absurd hfwd hf
        · rw [updateCarState_other st d τ hsame hwrap hfwd]
          refine ⟨?_, ?_, ?_, ?_, ?_⟩
          · rintro (hc | hc | hc) <;> exact absurd rfl hc
          · intro hc; exact absurd rfl hc
          · intro hc; exact absurd rfl hc
          · intro hc; exact absurd rfl hc
          · intro _ _ _; exact ⟨rfl, rfl, rfl, rfl, rfl⟩
  exact ⟨fun hl hs => processCar_offtrack states car_idx dists surfs τ hl hs,
    hmain.1, hmain.2.1, hmain.2.2.1, hmain.2.2.2.1, hmain.2.2.2.2,
    fun hv => validCars_sectorRun hv frames⟩

/-- Witness for C8 at concrete inputs: an off-track car is skipped, and a
wrap at elapsed 2 s records `s3 = 2.0`, inside `[0, 300]`. -/
theorem C8_sector_rules_witness :
    processCar [] 0 [0.5] [-1] 0 = [] ∧
    (updateCarState c8car 0.1 12).s3 = some (round3 (12 - c8car.sector_start_time)) ∧
    0 ≤ round3 ((12 : ℚ) - c8car.sector_start_time) ∧
    round3 ((12 : ℚ) - c8car.sector_start_time) ≤ 300 := by
  have h := C8_sector_rules [] 0 [0.5] [-1] 0 c8car 0.1 []
  have h2 := C8_sector_rules [] 0 [0.5] [-1] 12 c8car 0.1 []
  refine ⟨h.1 (by decide) (by decide), ?_⟩
  exact h2.2.2.2.2.1 (by with_unfolding_all exact of_decide_eq_true rfl)
